import Mathlib

/-!
# VoteCounter: the snapshot model (SnapshotModel.cpp)

A shallow embedding of `SnapshotModel`: the named matrix cache (`m_matrices`),
palette training, pixel classification, confidence masking, contour commits
and the flood-fill mask editing operations.

Conventions of the embedding.
* A `cv::Mat` is its header (rows, cols) together with its elements; the
  element type is fixed by the constructor of `CvMat` (the run-time type
  field of `cv::Mat`).
* `float` values are exact rationals.
* OpenCV, FLANN and Qt routines whose internals are not part of this
  repository (clustering, contour tracing, polygon geometry, colour
  conversion, nearest-neighbour search) are fields of `Env`; the repository's
  own control flow around them is translated line by line.
* `QMap<QString, T>` is an association list kept in ascending key order.
-/

namespace VoteCounter

/-! ## Matrices -/

/-- A `cv::Mat`: the header and the element stored at (row, col). -/
structure Mat (α : Type) where
  rows : Nat
  cols : Nat
  px : Nat → Nat → α

/-- Float triple: one CV_32FC3 pixel (L, a, b). -/
abbrev Color3f := ℚ × ℚ × ℚ

/-- Byte triple: one CV_8UC3 pixel. -/
abbrev Color3b := Nat × Nat × Nat

/-- The matrices the cache holds, by element type. -/
inductive CvMat where
  | u8 (m : Mat Nat)
  | u8c3 (m : Mat Color3b)
  | s32 (m : Mat Int)
  | f32 (m : Mat ℚ)
  | f32c3 (m : Mat Color3f)

/-- Number of rows of a cached matrix. -/
def CvMat.rows : CvMat → Nat
  | .u8 m => m.rows
  | .u8c3 m => m.rows
  | .s32 m => m.rows
  | .f32 m => m.rows
  | .f32c3 m => m.rows

/-- Number of columns of a cached matrix. -/
def CvMat.cols : CvMat → Nat
  | .u8 m => m.cols
  | .u8c3 m => m.cols
  | .s32 m => m.cols
  | .f32 m => m.cols
  | .f32c3 m => m.cols

/-- The constructor `cv::Mat(rows, cols, type, cv::Scalar(v))`. -/
def Mat.fill {α : Type} (rows cols : Nat) (v : α) : Mat α :=
  ⟨rows, cols, fun _ _ => v⟩

/-- A default-constructed `cv::Mat()`: no rows, no columns, type 0 (CV_8UC1). -/
def CvMat.empty : CvMat := .u8 (Mat.fill 0 0 0)

/-- Read a cached matrix as `at<unsigned char>`; the masks are stored as
CV_8UC1, the header is kept for the other element types. -/
def CvMat.asU8 : CvMat → Mat Nat
  | .u8 m => m
  | c => ⟨c.rows, c.cols, fun _ _ => 0⟩

/-- Read a cached matrix as `at<int>` (the "indices" raster). -/
def CvMat.asS32 : CvMat → Mat Int
  | .s32 m => m
  | c => ⟨c.rows, c.cols, fun _ _ => 0⟩

/-- Read a cached matrix as CV_32FC1 (the "dists" raster, the palette). -/
def CvMat.asF32 : CvMat → Mat ℚ
  | .f32 m => m
  | c => ⟨c.rows, c.cols, fun _ _ => 0⟩

/-- Read a cached matrix as CV_32FC3 (the "lab" image). -/
def CvMat.asF32C3 : CvMat → Mat Color3f
  | .f32c3 m => m
  | c => ⟨c.rows, c.cols, fun _ _ => (0, 0, 0)⟩

/-- Read a cached matrix as CV_8UC3 (the "input" image). -/
def CvMat.asU8C3 : CvMat → Mat Color3b
  | .u8c3 m => m
  | c => ⟨c.rows, c.cols, fun _ _ => (0, 0, 0)⟩

/-! ## QMap -/

/-- The container `QMap<QString, T>`: key/value pairs in ascending key order. -/
abbrev QMap (α : Type) := List (String × α)

/-- The test `QMap::contains`. -/
def QMap.contains {α : Type} (m : QMap α) (k : String) : Bool :=
  m.any fun e => decide (e.1 = k)

/-- The lookup `QMap::value` / `operator[]` on a present key. -/
def QMap.value {α : Type} : QMap α → String → Option α
  | [], _ => none
  | (k1, v) :: t, k => if k1 = k then some v else QMap.value t k

/-- The order `QString::operator<`: lexicographic on the characters. -/
def strLt (a b : String) : Bool :=
  decide (a.data < b.data)

/-- The update `QMap::insert` / `operator[] =`: replace the value of a present key,
otherwise insert at the key's place in the order. -/
def QMap.insert {α : Type} : QMap α → String → α → QMap α
  | [], k, v => [(k, v)]
  | (k1, v1) :: t, k, v =>
    if k1 = k then (k, v) :: t
    else if strLt k k1 then (k, v) :: (k1, v1) :: t
    else (k1, v1) :: QMap.insert t k v

/-- The removal `QMap::remove`. -/
def QMap.remove {α : Type} (m : QMap α) (k : String) : QMap α :=
  m.filter fun e => !decide (e.1 = k)

/-- The list `QMap::keys`: the keys in ascending order. -/
def QMap.keys {α : Type} (m : QMap α) : List String :=
  m.map Prod.fst

/-! ## Static data of SnapshotModel -/

/-- The list `SnapshotModel::s_colorNames`. -/
def s_colorNames : List String := ["green", "pink", "yellow"]

/-- The list `SnapshotModel::s_persistentMasks`. -/
def s_persistentMasks : List String :=
  ["train.contours.green", "train.contours.pink", "train.contours.yellow"]

/-- The test `QString::contains(".contours.")` and friends: substring test. -/
def strContains (s pat : String) : Bool :=
  s.data.tails.any fun t => pat.data.isPrefixOf t

/-- The test `QString::startsWith`. -/
def strStartsWith (s pat : String) : Bool :=
  pat.data.isPrefixOf s.data

/-- The enumeration `SnapshotModel::Mode`. -/
inductive Mode where
  | INERT
  | TRAIN
  | COUNT
  deriving DecidableEq

/-- A `cv::Point` / integer contour vertex (x, y). -/
abbrev Point := Int × Int

/-- A traced contour: `std::vector<cv::Point>`. -/
abbrev Contour := List Point

/-- A `QPolygonF`: vertices (x, y). -/
abbrev Polygon := List (ℚ × ℚ)

/-- A `QRect`: left, top, right, bottom, all inclusive. -/
structure QRect where
  x1 : Int
  y1 : Int
  x2 : Int
  y2 : Int
  deriving DecidableEq

/-- A `cv::Rect`: x, y, width, height. -/
structure Rect where
  x : Int
  y : Int
  width : Int
  height : Int
  deriving DecidableEq

/-- A `QGraphicsPolygonItem` of the scene: the full name of its parent layer
(`ITEM_FULLNAME`) and its polygon. -/
structure PolyItem where
  layer : String
  polygon : Polygon
  deriving DecidableEq

/-- A `cv::flann::GenericIndex<ColorDistance>`: its internals belong to FLANN;
what the model keeps is the dataset it was built over. -/
structure Index where
  dataset : CvMat

/-- The header constant and the library routines the repository calls. -/
structure Env where
  /-- The constant `COLOR_GRADATIONS` of SnapshotModel.hpp: clusters per colour. -/
  COLOR_GRADATIONS : Nat
  /-- The call `cv::flann::hierarchicalClustering(sample, centers, params)` with
  branching `COLOR_GRADATIONS`: the number of clusters it computed and the
  contents it left in the `COLOR_GRADATIONS x 3` matrix `centers`. -/
  hierarchicalClustering : List Color3f → Nat × (Nat → Nat → ℚ)
  /-- The conversion `convertTo(CV_32FC3, 1/255)` then `cv::cvtColor(.., CV_RGB2Lab)`, per pixel. -/
  rgb2lab : Color3b → Color3f
  /-- The conversion `cv::cvtColor(.., CV_Lab2RGB)` then `convertTo(CV_8UC1, 255)`, per palette row. -/
  lab2rgb : Color3f → Color3b
  /-- The call `cv::findContours(mask, contours, CV_RETR_EXTERNAL, CV_CHAIN_APPROX_TC89_L1)`
  on a mask (before the ROI offset is added). -/
  findContours : Mat Nat → List Contour
  /-- The call `cv::approxPolyDP(contour, approx, epsilon, true)`. -/
  approxPolyDP : Contour → Int → Contour
  /-- Does the item shape of a polygon contain the point: `m_scene->items(QPointF(x,y))`. -/
  shapeContainsPoint : Polygon → Int → Int → Bool
  /-- Does the item shape intersect the rectangle: `Qt::IntersectsItemShape`. -/
  shapeIntersects : Polygon → QRect → Bool
  /-- Does the rectangle (x, y, width, height) contain the whole item shape:
  `Qt::ContainsItemShape`. -/
  shapeInside : Polygon → ℚ × ℚ × ℚ × ℚ → Bool
  /-- The rectangle `polygon().boundingRect().toRect()`. -/
  boundingRect : Polygon → QRect
  /-- The union `QPolygonF::united`. -/
  united : Polygon → Polygon → Polygon
  /-- The hull `cv::convexHull` on the vertices of a polygon. -/
  convexHull : Polygon → Polygon
  /-- The pixels (row, col) `cv::fillPoly` paints for a polygon. -/
  fillPolyCovers : Polygon → Nat → Nat → Bool
  /-- The search `knnSearch` with one neighbour: the nearest palette row and its distance. -/
  knnSearch : Index → Color3f → Int × ℚ
  /-- The conversion `toQt(cv::Rect)` of QOpenCV.hpp. -/
  toQt : Rect → QRect
  /-- The conversion `toCv(QRect)` of QOpenCV.hpp. -/
  toCv : QRect → Rect
  /-- The conversion `toQPolygon(std::vector<cv::Point>)` of QOpenCV.hpp. -/
  toQPolygon : Contour → Polygon
  /-- The conversion `toCv(QPointF)` of QOpenCV.hpp, as (x, y). -/
  toCvPoint : ℚ × ℚ → Point
  /-- Default of the parameter `addToScene` of `detectContours` (SnapshotModel.hpp). -/
  dflt_addToScene : Bool
  /-- Default of the parameter `maskROI` of `detectContours` (SnapshotModel.hpp). -/
  dflt_maskROI : Rect
  /-- Default of the parameter `simple` of `detectContours` (SnapshotModel.hpp). -/
  dflt_simple : Int
  /-- Default of the parameter `paintToMask` of `addContour` (SnapshotModel.hpp). -/
  dflt_paintToMask : Bool

/-- The state of a `SnapshotModel` object. -/
structure SnapshotModel where
  /-- The image `m_images["input"]`, loaded by the constructor. -/
  input : Mat Color3b
  /-- The bytes of the buffer of the input image that belong to no pixel (the
  padding at the end of a scanline), by offset in the buffer. -/
  inputPadding : Nat → Nat
  /-- The cache `m_matrices`. -/
  m_matrices : QMap CvMat
  /-- The mode `m_mode`. -/
  m_mode : Mode
  /-- The training colour `m_color`. -/
  m_color : String
  /-- The classifier `m_flann`; `none` is the null pointer. -/
  m_flann : Option Index
  /-- The polygon items of `m_scene`. -/
  polys : List PolyItem
  /-- The files of `m_cacheDir`, by file name. -/
  cacheFiles : String → Option CvMat
  /-- The file `palette.png` in `m_parentDir`. -/
  paletteFile : Option CvMat
  /-- The file `flann.dat` in `m_parentDir`. -/
  flannFile : Option Index
  /-- What was written to `qDebug()` / `qWarning()`, oldest first. -/
  log : List String

/-! ## The matrix cache: setMatrix, getMatrix -/

/-- The method `SnapshotModel::setMatrix`. -/
def setMatrix (s : SnapshotModel) (tag : String) (matrix : CvMat) : SnapshotModel :=
  { s with m_matrices := s.m_matrices.insert tag matrix }

/-- The length `QImage::bytesPerLine()` of a scanline of an image of format
RGB888: three bytes a pixel, rounded up to a multiple of four bytes. -/
def bytesPerLine (width : Nat) : Nat := (width * 24 + 31) / 32 * 4

/-- The byte at an offset of the buffer `getImage("input").constBits()`: the
scanlines of the image one after the other, each `bytesPerLine` long, a pixel
as its red, green and blue byte. -/
def constBits (s : SnapshotModel) (offset : Nat) : Nat :=
  let line := offset / bytesPerLine s.input.cols
  let x := offset % bytesPerLine s.input.cols
  if x < 3 * s.input.cols then
    let p := s.input.px line (x / 3)
    if x % 3 = 0 then p.1 else if x % 3 = 1 then p.2.1 else p.2.2
  else s.inputPadding offset

/-- The matrix `cv::Mat(img.height(), img.width(), CV_8UC3, img.constBits())`
of line 521: no step is passed, so row `i` of the matrix starts `3 * width`
bytes after row `i - 1` in the buffer, whatever the length of a scanline. -/
def inputMatrix (s : SnapshotModel) : Mat Color3b :=
  ⟨s.input.rows, s.input.cols, fun i j =>
    let o := (i * s.input.cols + j) * 3
    (constBits s o, constBits s (o + 1), constBits s (o + 2))⟩

/-- The branches of `getMatrix` that read no other cached matrix: a tag with
".contours." gets a zero mask of the input size, "input" wraps the buffer of
the image, and every other tag (also "cacheable_mask", whose image is never
loaded) gets the default-constructed matrix. -/
def newMatrix (s : SnapshotModel) (tag : String) : CvMat :=
  if strContains tag ".contours." then
    .u8 (Mat.fill s.input.rows s.input.cols 0)
  else if tag = "input" then
    .u8c3 (inputMatrix s)
  else
    CvMat.empty

/-- The method `getMatrix` for a tag other than "lab" and "paletteRGB". -/
def getMatrixLeaf (s : SnapshotModel) (tag : String) : SnapshotModel × CvMat :=
  match s.m_matrices.value tag with
  | some m => (s, m)
  | none => (setMatrix s tag (newMatrix s tag), newMatrix s tag)

/-- The method `SnapshotModel::getMatrix`: the cached matrix of the tag; on a miss the
matrix is computed by the rule of the tag and memoised. -/
def getMatrix (E : Env) (s : SnapshotModel) (tag : String) : SnapshotModel × CvMat :=
  match s.m_matrices.value tag with
  | some m => (s, m)
  | none =>
    if tag = "lab" then
      let r := getMatrixLeaf s "input"
      let inp := r.2.asU8C3
      let matrix := CvMat.f32c3 ⟨inp.rows, inp.cols, fun i j => E.rgb2lab (inp.px i j)⟩
      (setMatrix r.1 tag matrix, matrix)
    else if strContains tag ".contours." then
      getMatrixLeaf s tag
    else if tag = "paletteRGB" then
      let r := getMatrixLeaf s "paletteLab"
      let pal := r.2.asF32
      let matrix := CvMat.u8 ⟨pal.rows, 3, fun i c =>
        let rgb := E.lab2rgb (pal.px i 0, pal.px i 1, pal.px i 2)
        if c = 0 then rgb.1 else if c = 1 then rgb.2.1 else rgb.2.2⟩
      (setMatrix r.1 tag matrix, matrix)
    else
      getMatrixLeaf s tag

/-! ## Layers -/

/-- Is the layer `name` the group `anc` or a group below it: layer groups are
nested along the dots of their full names (`SnapshotModel::layer`). -/
def layerUnder (anc name : String) : Bool :=
  decide (name = anc) || strStartsWith name (anc ++ ".")

/-- The method `SnapshotModel::clearLayer`: the children of the layer group are
deleted, with the polygon items below them. -/
def clearLayer (s : SnapshotModel) (name : String) : SnapshotModel :=
  { s with polys := s.polys.filter fun p => !layerUnder name p.layer }

/-- The method `SnapshotModel::showPalette`: reads "paletteRGB" through the cache
and replaces the contents of the layer "train.palette" by the palette pixmap
(no polygon item). -/
def showPalette (E : Env) (s : SnapshotModel) : SnapshotModel :=
  clearLayer (getMatrix E s "paletteRGB").1 "train.palette"

/-! ## Training: on_learn_clicked, showPalette, buildFlannRecognizer -/

/-- The sample loop of `on_learn_clicked` (lines 292-299): the Lab triples of
the input pixels whose mask byte is non-zero, in row-major order. -/
def samplePixels (input : Mat Color3f) (mask : Mat Nat) : List Color3f :=
  (List.range input.rows).flatMap fun i =>
    (List.range input.cols).filterMap fun j =>
      if mask.px i j ≠ 0 then some (input.px i j) else none

/-- One element of `centers_list`, together with the tag of the training mask
whose samples were clustered into it and the cluster count that was added to
`centers_count`. -/
structure Centers where
  tag : String
  n_clusters : Nat
  centers : Mat ℚ

/-- The `foreach` over `m_matrices.keys()` of `on_learn_clicked` (lines
286-315): tags that do not start with "train.contours." and masks without a
marked pixel are skipped, every other mask appends one element to
`centers_list`. -/
def learnLoop (E : Env) (input : Mat Color3f) :
    SnapshotModel → List String → SnapshotModel × List Centers
  | s, [] => (s, [])
  | s, matrixTag :: rest =>
    if !strStartsWith matrixTag "train.contours." then learnLoop E input s rest
    else
      let r := getMatrix E s matrixTag
      let sample_pixels := samplePixels input r.2.asU8
      if sample_pixels.length = 0 then learnLoop E input r.1 rest
      else
        let c := E.hierarchicalClustering sample_pixels
        let k := learnLoop E input r.1 rest
        (k.1, ⟨matrixTag, c.1, ⟨E.COLOR_GRADATIONS, 3, c.2⟩⟩ :: k.2)

/-- The sum `centers_count` of the cluster counts. -/
def centersCount (centers_list : List Centers) : Nat :=
  (centers_list.map Centers.n_clusters).sum

/-- The statement `centers.copyTo(paletteLab.rowRange(startRow, endRow))`:
`rowRange` throws when the range leaves the matrix; otherwise the rows of the
range are overwritten by the rows of `centers`. -/
def copyToRowRange (paletteLab centers : Mat ℚ) (startRow endRow : Nat) :
    Except String (Mat ℚ) :=
  if startRow ≤ endRow ∧ endRow ≤ paletteLab.rows then
    .ok ⟨paletteLab.rows, paletteLab.cols, fun r c =>
      if startRow ≤ r ∧ r < endRow then centers.px (r - startRow) c else paletteLab.px r c⟩
  else
    .error "cv::Exception: rowRange"

/-- The copy loop of `on_learn_clicked` (lines 318-319), from index `i` on. -/
def assemblePalette (G : Nat) : Mat ℚ → Nat → List Centers → Except String (Mat ℚ)
  | paletteLab, _, [] => .ok paletteLab
  | paletteLab, i, c :: rest =>
    match copyToRowRange paletteLab c.centers (i * G) ((i + 1) * G) with
    | .ok p => assemblePalette G p (i + 1) rest
    | .error e => .error e


/-- The method `SnapshotModel::buildFlannRecognizer`: a new index over "paletteLab"
replaces `m_flann`; the palette image and the index are written to the
parent directory. -/
def buildFlannRecognizer (E : Env) (s : SnapshotModel) : SnapshotModel :=
  let r := getMatrix E s "paletteLab"
  let s1 := { r.1 with m_flann := some ⟨r.2⟩ }
  let r2 := getMatrix E s1 "paletteRGB"
  { r2.1 with paletteFile := some r2.2, flannFile := s1.m_flann }

/-- The value of `centers_list` when the `foreach` of `on_learn_clicked` ends. -/
def learnedCenters (E : Env) (s : SnapshotModel) : List Centers :=
  let r := getMatrix E s "lab"
  (learnLoop E r.2.asF32C3 r.1 r.1.m_matrices.keys).2

/-- The slot `SnapshotModel::on_learn_clicked`. The result is an error when
`rowRange` throws. -/
def on_learn_clicked (E : Env) (s : SnapshotModel) : Except String SnapshotModel :=
  let r := getMatrix E s "lab"
  let input := r.2.asF32C3
  let l := learnLoop E input r.1 r.1.m_matrices.keys
  let centers_list := l.2
  let centers_count := centersCount centers_list
  match assemblePalette E.COLOR_GRADATIONS ⟨centers_count, 3, fun _ _ => 0⟩ 0 centers_list with
  | .error e => .error e
  | .ok paletteLab =>
    let s1 := { l.1 with m_matrices := l.1.m_matrices.remove "paletteRGB" }
    let s2 := setMatrix s1 "paletteLab" (.f32 paletteLab)
    let s3 := showPalette E s2
    let s4 := buildFlannRecognizer E s3
    .ok { s4 with log := s4.log ++ ["built FLANN classifier"] }

/-- The training mask that supplied the samples clustered into palette row
`i`: line 319 copies `centers_list[k]` into the rows `k * COLOR_GRADATIONS`
up to `(k + 1) * COLOR_GRADATIONS`, so row `i` comes from element
`i / COLOR_GRADATIONS`. -/
def paletteRowSource (E : Env) (s : SnapshotModel) (i : Nat) : Option String :=
  ((learnedCenters E s).get? (i / E.COLOR_GRADATIONS)).map Centers.tag

/-- The colour group the consumers of the palette give to row `i`:
`s_colorNames[i / COLOR_GRADATIONS]` (computeColorDiff line 397, pick line 106). -/
def colorGroupOf (E : Env) (i : Nat) : Option String :=
  s_colorNames.get? (i / E.COLOR_GRADATIONS)

/-! ## Flood fill (cv::floodFill, 4-connected, fixed range) -/

/-- The 4-neighbours of a pixel (row, col). -/
def neighbours4 (p : Nat × Nat) : List (Nat × Nat) :=
  [(p.1 + 1, p.2), (p.1, p.2 + 1)] ++
    (if 0 < p.1 then [(p.1 - 1, p.2)] else []) ++
    (if 0 < p.2 then [(p.1, p.2 - 1)] else [])

/-- Every pixel (row, col) of a raster, row-major. -/
def allPixels (rows cols : Nat) : List (Nat × Nat) :=
  (List.range rows).flatMap fun i => (List.range cols).map fun j => (i, j)

/-- One round of region growth: the pixels already reached plus the admissible
pixels with a reached 4-neighbour. -/
def growOnce (rows cols : Nat) (ok : Nat → Nat → Bool) (cur : List (Nat × Nat)) :
    List (Nat × Nat) :=
  (allPixels rows cols).filter fun p =>
    cur.contains p || (ok p.1 p.2 && (neighbours4 p).any cur.contains)

/-- The region a 4-connected fixed-range fill reaches from the seed: the
admissible pixels connected to the seed through admissible pixels. -/
def floodRegion (rows cols : Nat) (ok : Nat → Nat → Bool) (seed : Nat × Nat) :
    List (Nat × Nat) :=
  Nat.iterate (growOnce rows cols ok) (rows * cols) [seed]

/-- Fixed-range test of `cv::floodFill` on a float image: every channel of the
pixel lies within `loDiff` below and `upDiff` above the seed pixel. -/
def inFixedRange (loDiff upDiff : ℚ) (seed p : Color3f) : Bool :=
  decide (seed.1 - loDiff ≤ p.1 ∧ p.1 ≤ seed.1 + upDiff) &&
  decide (seed.2.1 - loDiff ≤ p.2.1 ∧ p.2.1 ≤ seed.2.1 + upDiff) &&
  decide (seed.2.2 - loDiff ≤ p.2.2 ∧ p.2.2 ≤ seed.2.2 + upDiff)

/-- Bounding rectangle (image coordinates) of a non-empty pixel list. -/
def boundingBox (region : List (Nat × Nat)) : Rect :=
  let xs := region.map Prod.snd
  let ys := region.map Prod.fst
  let xMin := xs.foldl min (xs.headD 0)
  let xMax := xs.foldl max (xs.headD 0)
  let yMin := ys.foldl min (ys.headD 0)
  let yMax := ys.foldl max (ys.headD 0)
  ⟨xMin, yMin, (xMax : Int) - xMin + 1, (yMax : Int) - yMin + 1⟩

/-- The result of `cv::floodFill` with a mask: the returned area, the mask
after the call and the bounding rectangle written to `rect`. -/
structure FloodResult where
  area : Int
  mask : Mat Nat
  rect : Rect

/-- The call `cv::floodFill(image, mask, seed, 0, &rect, loDiff, upDiff,
4 | FLOODFILL_MASK_ONLY | FLOODFILL_FIXED_RANGE)` on a CV_32FC3 image.
The mask is two pixels wider and taller than the image, image pixel (x, y)
is mask pixel (x + 1, y + 1); the border of the mask is set to 1; the fill
marks the reached pixels with 1 in the mask and leaves the image alone;
`rect` is the bounding rectangle of the reached pixels in image coordinates;
the return value is their number. A seed outside the image, a negative
difference or a mask of the wrong size throws. -/
def floodFillMask (image : Mat Color3f) (mask : Mat Nat) (x y : Int) (loDiff upDiff : ℚ) :
    Except String FloodResult :=
  if mask.rows ≠ image.rows + 2 ∨ mask.cols ≠ image.cols + 2 then
    .error "cv::Exception: mask size"
  else if loDiff < 0 ∨ upDiff < 0 then
    .error "cv::Exception: lo_diff and up_diff must be non-negative"
  else if x < 0 ∨ (image.cols : Int) ≤ x ∨ y < 0 ∨ (image.rows : Int) ≤ y then
    .error "cv::Exception: seed is out of range"
  else
    let bordered : Mat Nat := ⟨mask.rows, mask.cols, fun r c =>
      if r = 0 ∨ r = image.rows + 1 ∨ c = 0 ∨ c = image.cols + 1 then 1 else mask.px r c⟩
    let sr := y.toNat
    let sc := x.toNat
    if bordered.px (sr + 1) (sc + 1) ≠ 0 then
      .ok ⟨0, bordered, ⟨0, 0, 0, 0⟩⟩
    else
      let seedVal := image.px sr sc
      let region := floodRegion image.rows image.cols
        (fun r c => decide (bordered.px (r + 1) (c + 1) = 0) &&
          inFixedRange loDiff upDiff seedVal (image.px r c)) (sr, sc)
      .ok ⟨region.length,
        ⟨mask.rows, mask.cols, fun r c =>
          if 0 < r ∧ 0 < c ∧ region.contains (r - 1, c - 1) then 1 else bordered.px r c⟩,
        boundingBox region⟩

/-- The call `cv::floodFill(mask, seed, cv::Scalar(newVal), 0, cv::Scalar(),
cv::Scalar(), 4 | FLOODFILL_FIXED_RANGE)` on a CV_8UC1 image: the pixels
equal to the seed pixel and 4-connected to it get `newVal`. A seed outside
the image throws. -/
def floodFillSimple (image : Mat Nat) (x y : Int) (newVal : Nat) : Except String (Mat Nat) :=
  if x < 0 ∨ (image.cols : Int) ≤ x ∨ y < 0 ∨ (image.rows : Int) ≤ y then
    .error "cv::Exception: seed is out of range"
  else
    let sr := y.toNat
    let sc := x.toNat
    let seedVal := image.px sr sc
    let region := floodRegion image.rows image.cols
      (fun r c => decide (image.px r c = seedVal)) (sr, sc)
    .ok ⟨image.rows, image.cols, fun r c =>
      if region.contains (r, c) then newVal else image.px r c⟩

/-! ## Rectangles -/

/-- The null rectangle `QRect()`. -/
def QRect.null : QRect := ⟨0, 0, -1, -1⟩

/-- The test `QRect::isNull`. -/
def QRect.isNull (r : QRect) : Bool :=
  decide (r.x2 = r.x1 - 1 ∧ r.y2 = r.y1 - 1)

/-- The edit `QRect::adjust`. -/
def QRect.adjust (r : QRect) (dx1 dy1 dx2 dy2 : Int) : QRect :=
  ⟨r.x1 + dx1, r.y1 + dy1, r.x2 + dx2, r.y2 + dy2⟩

/-- The bounding rectangle `QRect::united`. -/
def QRect.united (a b : QRect) : QRect :=
  if a.isNull then b
  else if b.isNull then a
  else
    ⟨min (min a.x1 a.x2) (min b.x1 b.x2), min (min a.y1 a.y2) (min b.y1 b.y2),
     max (max a.x1 a.x2) (max b.x1 b.x2), max (max a.y1 a.y2) (max b.y1 b.y2)⟩

/-- The intersection `QRect::intersected`. -/
def QRect.intersected (a b : QRect) : QRect :=
  if a.isNull || b.isNull then QRect.null
  else
    let l1 := min a.x1 a.x2
    let r1 := max a.x1 a.x2
    let l2 := min b.x1 b.x2
    let r2 := max b.x1 b.x2
    let t1 := min a.y1 a.y2
    let b1 := max a.y1 a.y2
    let t2 := min b.y1 b.y2
    let b2 := max b.y1 b.y2
    if l1 > r2 ∨ l2 > r1 ∨ t1 > b2 ∨ t2 > b1 then QRect.null
    else ⟨max l1 l2, max t1 t2, min r1 r2, min b1 b2⟩

/-- The test `QRect::contains(x, y)`. -/
def QRect.containsPoint (r : QRect) (x y : Int) : Bool :=
  !r.isNull && decide (min r.x1 r.x2 ≤ x ∧ x ≤ max r.x1 r.x2 ∧
    min r.y1 r.y2 ≤ y ∧ y ≤ max r.y1 r.y2)

/-- The rectangle `getImage("input").rect()`. -/
def inputRect (s : SnapshotModel) : QRect :=
  ⟨0, 0, (s.input.cols : Int) - 1, (s.input.rows : Int) - 1⟩

/-- Is the region of interest inside the matrix: the check of the
constructor `cv::Mat(m, roi)`. -/
def roiInside (m : Mat Nat) (roi : Rect) : Bool :=
  decide (0 ≤ roi.x ∧ 0 ≤ roi.width ∧ roi.x + roi.width ≤ m.cols ∧
    0 ≤ roi.y ∧ 0 ≤ roi.height ∧ roi.y + roi.height ≤ m.rows)

/-- The submatrix `cv::Mat(m, roi)` as a matrix of its own. -/
def subMat (m : Mat Nat) (roi : Rect) : Mat Nat :=
  ⟨roi.height.toNat, roi.width.toNat, fun r c => m.px (roi.y.toNat + r) (roi.x.toNat + c)⟩

/-- The conversion `saturate_cast<uchar>` of an integer. -/
def saturate_u8 (v : Int) : Nat :=
  if v < 0 then 0 else if 255 < v then 255 else v.toNat

/-- The statement `cv::Mat(mask, img_bounds) |= cv::Mat(pickMask, bounds) * 255`
(line 241): every mask pixel of `img_bounds` is or-ed with 255 times the
pixel of `pickMask` at the same offset inside `bounds`. Either constructor
throws when its rectangle leaves its matrix. -/
def mergeMasks (mask pickMask : Mat Nat) (img_bounds bounds : Rect) : Except String (Mat Nat) :=
  if !roiInside mask img_bounds || !roiInside pickMask bounds then
    .error "cv::Exception: roi"
  else
    .ok ⟨mask.rows, mask.cols, fun r c =>
      if img_bounds.y ≤ r ∧ (r : Int) < img_bounds.y + img_bounds.height ∧
          img_bounds.x ≤ c ∧ (c : Int) < img_bounds.x + img_bounds.width then
        mask.px r c |||
          saturate_u8 ((pickMask.px ((r : Int) - img_bounds.y + bounds.y).toNat
            ((c : Int) - img_bounds.x + bounds.x).toNat : Int) * 255)
      else mask.px r c⟩


/-! ## The scene: layers and polygon items -/

/-- The method `SnapshotModel::addContour`: a new polygon item in the layer; with
`paintToMask` the polygon is filled with 255 in the mask of the layer. -/
def addContour (E : Env) (s : SnapshotModel) (contour : Polygon) (name : String)
    (paintToMask : Bool) : SnapshotModel :=
  let s1 := { s with polys := s.polys ++ [⟨name, contour⟩] }
  if paintToMask then
    let r := getMatrix E s1 name
    let mask := r.2.asU8
    setMatrix r.1 name (.u8 ⟨mask.rows, mask.cols, fun i j =>
      if E.fillPolyCovers contour i j then 255 else mask.px i j⟩)
  else s1

/-- The polygons `detectContours` derives from the traced contours (lines
716-725): simplified when `simple` is positive. -/
def contourPolygons (E : Env) (contours : List Contour) (simple : Int) : List Polygon :=
  contours.map fun contour =>
    if 0 < simple then E.toQPolygon (E.approxPolyDP contour simple)
    else E.toQPolygon contour

/-- The contours `cv::findContours` returns for the mask restricted to
`maskROI` (the whole mask when the width is 0), moved by the offset
`maskROI.tl()`. -/
def tracedContours (E : Env) (mask : Mat Nat) (maskROI : Rect) : List Contour :=
  let roiMask := if maskROI.width ≠ 0 then subMat mask maskROI else mask
  (E.findContours roiMask).map fun c => c.map fun q => (q.1 + maskROI.x, q.2 + maskROI.y)

/-- The method `SnapshotModel::detectContours`: the new state and the returned
polygons. Nothing happens for a name without a cached mask. -/
def detectContours (E : Env) (s : SnapshotModel) (maskAndLayerName : String)
    (addToScene : Bool) (maskROI : Rect) (simple : Int) :
    Except String (SnapshotModel × List Polygon) :=
  if !s.m_matrices.contains maskAndLayerName then .ok (s, [])
  else
    let r := getMatrix E s maskAndLayerName
    let mask := r.2.asU8
    if maskROI.width ≠ 0 ∧ !roiInside mask maskROI then .error "cv::Exception: roi"
    else
      let polygons := contourPolygons E (tracedContours E mask maskROI) simple
      if addToScene then
        .ok (polygons.foldl
          (fun st polygon => addContour E st polygon maskAndLayerName E.dflt_paintToMask)
          r.1, polygons)
      else .ok (r.1, polygons)

/-! ## Mask editing: floodPickContour, pick, unpick, mergeContours, clearContours -/

/-- The rectangle `img_bounds` of lines 237-239: `bounds - cv::Point(1,1)` with
negative coordinates replaced by 0. -/
def pickImgBounds (bounds : Rect) : Rect :=
  let b0 : Rect := ⟨bounds.x - 1, bounds.y - 1, bounds.width, bounds.height⟩
  let b1 : Rect := if b0.x < 0 then { b0 with x := 0 } else b0
  if b1.y < 0 then { b1 with y := 0 } else b1

/-- The method `SnapshotModel::floodPickContour`. -/
def floodPickContour (E : Env) (s : SnapshotModel) (x y fuzz : Int) (layerName : String) :
    Except String SnapshotModel :=
  let r0 := getMatrix E s "lab"
  let input := r0.2.asF32C3
  let r1 := getMatrix E r0.1 layerName
  let mask := r1.2.asU8
  let pickMask : Mat Nat := Mat.fill (input.rows + 2) (input.cols + 2) 0
  match floodFillMask input pickMask x y fuzz fuzz with
  | .error e => .error e
  | .ok f =>
    if f.area < 1 then .ok r1.1
    else
      let bounds := f.rect
      let img_bounds := pickImgBounds bounds
      match mergeMasks mask f.mask img_bounds bounds with
      | .error e => .error e
      | .ok merged =>
        let s2 := setMatrix r1.1 layerName (.u8 merged)
        let q0 := (E.toQt img_bounds).adjust (-1) (-1) 1 1
        let hit := fun (p : PolyItem) =>
          E.shapeIntersects p.polygon q0 && layerUnder layerName p.layer
        let q1 := (s2.polys.filter hit).foldl
          (fun q p => q.united (E.boundingRect p.polygon)) q0
        let s3 := { s2 with polys := s2.polys.filter fun p => !hit p }
        let q2 := (q1.adjust (-1) (-1) 1 1).intersected (inputRect s3)
        match detectContours E s3 layerName true (E.toCv q2) E.dflt_simple with
        | .error e => .error e
        | .ok d => .ok d.1

/-- The method `SnapshotModel::pick` with the value `fuzz` of the "pickFuzz" control. -/
def pick (E : Env) (s : SnapshotModel) (fuzz x y : Int) : Except String SnapshotModel :=
  if (inputRect s).containsPoint x y then
    match s.m_mode with
    | Mode.COUNT =>
      if !s.m_matrices.contains "indices" then
        .ok { s with log := s.log ++ ["Count cards first!"] }
      else
        let r := getMatrix E s "indices"
        let q := Int.tdiv (r.2.asS32.px y.toNat x.toNat) E.COLOR_GRADATIONS
        if q < 0 then .error "s_colorNames: index out of range"
        else
          match s_colorNames.get? q.toNat with
          | none => .error "s_colorNames: index out of range"
          | some color => floodPickContour E r.1 x y fuzz ("count.contours." ++ color)
    | Mode.TRAIN => floodPickContour E s x y fuzz ("train.contours." ++ s.m_color)
    | Mode.INERT => floodPickContour E s x y fuzz ""
  else .ok s

/-- The loop of `unpick` (lines 264-273) over the polygon items at the point. -/
def unpickLoop (E : Env) (x y : Int) : SnapshotModel → List PolyItem → Except String SnapshotModel
  | s, [] => .ok s
  | s, unpicked_poly :: rest =>
    let layerName := unpicked_poly.layer
    let r := getMatrix E s layerName
    match floodFillSimple r.2.asU8 x y 0 with
    | .error e => .error e
    | .ok mask =>
      let s1 := setMatrix r.1 layerName (.u8 mask)
      unpickLoop E x y { s1 with polys := s1.polys.erase unpicked_poly } rest

/-- The method `SnapshotModel::unpick`. -/
def unpick (E : Env) (s : SnapshotModel) (x y : Int) : Except String SnapshotModel :=
  unpickLoop E x y s (s.polys.filter fun p => E.shapeContainsPoint p.polygon x y)

/-- The first loop of `mergeContours` (lines 653-656): the polygon items
inside the rectangle, grouped by the name of their layer. -/
def collectByLayer : List PolyItem → QMap (List PolyItem) → QMap (List PolyItem)
  | [], collection => collection
  | q :: rest, collection =>
    collectByLayer rest
      (collection.insert q.layer (((collection.value q.layer).getD []) ++ [q]))

/-- The second loop of `mergeContours` (lines 658-671) over the layer names. -/
def mergeLoop (E : Env) (collection : QMap (List PolyItem)) :
    SnapshotModel → List String → SnapshotModel
  | s, [] => s
  | s, layerName :: rest =>
    let group := (collection.value layerName).getD []
    if group.length < 2 then mergeLoop E collection s rest
    else
      let superpoly := group.foldl (fun sp q => E.united sp q.polygon) []
      let s1 := { s with polys := group.foldl (fun l q => l.erase q) s.polys }
      mergeLoop E collection (addContour E s1 (E.convexHull superpoly) layerName true) rest

/-- The method `SnapshotModel::mergeContours` on the rectangle (x, y, width, height). -/
def mergeContours (E : Env) (s : SnapshotModel) (rect : ℚ × ℚ × ℚ × ℚ) : SnapshotModel :=
  let collection := collectByLayer (s.polys.filter fun p => E.shapeInside p.polygon rect) []
  mergeLoop E collection s collection.keys

/-- The loop of `clearContours` (lines 682-689). -/
def clearLoop (E : Env) : SnapshotModel → List PolyItem → Except String SnapshotModel
  | s, [] => .ok s
  | s, q :: rest =>
    let r := getMatrix E s q.layer
    match q.polygon with
    | [] => .error "QPolygonF: index out of range"
    | v :: _ =>
      let seed := E.toCvPoint v
      match floodFillSimple r.2.asU8 seed.1 seed.2 0 with
      | .error e => .error e
      | .ok mask =>
        let s1 := setMatrix r.1 q.layer (.u8 mask)
        clearLoop E { s1 with polys := s1.polys.erase q } rest

/-- The method `SnapshotModel::clearContours`. -/
def clearContours (E : Env) (s : SnapshotModel) (rect : ℚ × ℚ × ℚ × ℚ) :
    Except String SnapshotModel :=
  if s.m_mode ≠ Mode.TRAIN ∧ s.m_mode ≠ Mode.COUNT then .ok s
  else clearLoop E s (s.polys.filter fun p => E.shapeInside p.polygon rect)


/-! ## Persistence: saveData, loadData -/

/-- One round of the `foreach` of `saveData` (lines 162-167): the file
`name + ".png"` is written from the cache when the cache has the tag, and
removed otherwise. -/
def saveOne (E : Env) (s : SnapshotModel) (name : String) : SnapshotModel :=
  let fname := name ++ ".png"
  if s.m_matrices.contains name then
    let r := getMatrix E s name
    { r.1 with cacheFiles := fun f => if f = fname then some r.2 else r.1.cacheFiles f }
  else if (s.cacheFiles fname).isSome then
    { s with cacheFiles := fun f => if f = fname then none else s.cacheFiles f }
  else s

/-- The method `SnapshotModel::saveData`. -/
def saveData (E : Env) (s : SnapshotModel) : SnapshotModel :=
  s_persistentMasks.foldl (saveOne E) s

/-- One round of the `foreach` of `loadData` (lines 177-187) for the image
size `mrows x mcols`; `cv::imread(fname, 0)` reads the file as a CV_8UC1 matrix. -/
def loadOne (E : Env) (mrows mcols : Nat) (s : SnapshotModel) (name : String) :
    Except String SnapshotModel :=
  let fname := name ++ ".png"
  match s.cacheFiles fname with
  | none => .ok s
  | some file =>
    let mask := file.asU8
    if mask.rows = mrows ∧ mask.cols = mcols then
      match detectContours E (setMatrix s name (.u8 mask)) name
          E.dflt_addToScene E.dflt_maskROI E.dflt_simple with
      | .error e => .error e
      | .ok d => .ok d.1
    else
      .ok { s with
        log := s.log ++ ["Incompatible mask " ++ fname ++ ", removing"]
        cacheFiles := fun f => if f = fname then none else s.cacheFiles f }

/-- The `foreach` of `loadData` over the names. -/
def loadLoop (E : Env) (mrows mcols : Nat) : SnapshotModel → List String → Except String SnapshotModel
  | s, [] => .ok s
  | s, name :: rest =>
    match loadOne E mrows mcols s name with
    | .error e => .error e
    | .ok s1 => loadLoop E mrows mcols s1 rest

/-- The method `SnapshotModel::loadData`. -/
def loadData (E : Env) (s : SnapshotModel) : Except String SnapshotModel :=
  let r := getMatrix E s "input"
  loadLoop E r.2.rows r.2.cols r.1 s_persistentMasks

/-! ## Classification: on_count_clicked, classifyPixels -/

/-- The method `SnapshotModel::classifyPixels`: the nearest palette row and its
distance for every pixel of "lab", stored as "indices" and "dists". The call
through a null `m_flann` is an error. -/
def classifyPixels (E : Env) (s : SnapshotModel) : Except String SnapshotModel :=
  let r := getMatrix E s "lab"
  let input := r.2.asF32C3
  match r.1.m_flann with
  | none => .error "null pointer dereference: m_flann"
  | some flann =>
    let indices : Mat Int := ⟨input.rows, input.cols, fun i j => (E.knnSearch flann (input.px i j)).1⟩
    let dists : Mat ℚ := ⟨input.rows, input.cols, fun i j => (E.knnSearch flann (input.px i j)).2⟩
    .ok (setMatrix (setMatrix r.1 "indices" (.s32 indices)) "dists" (.f32 dists))

/-- The slot `SnapshotModel::on_count_clicked`: the state it leaves and whether
`classifyPixels` was handed to the worker (`QtConcurrent::run`). -/
def on_count_clicked (s : SnapshotModel) : SnapshotModel × Bool :=
  if s.m_mode ≠ Mode.COUNT then (s, false)
  else if s.m_flann.isNone then
    ({ s with log := s.log ++ ["Teach me the colors first"] }, false)
  else (s, true)

/-! ## Confidence masks: computeColorDiff -/

/-- The call `cv::threshold(src, dst, thresh, 0, cv::THRESH_TRUNC)`, per element. -/
def thresholdTrunc (thresh d : ℚ) : ℚ :=
  if thresh < d then thresh else d

/-- The rounding `cvRound`: to the nearest integer, ties to the even one. -/
def cvRound (v : ℚ) : Int :=
  let f := ⌊v⌋
  let r := v - f
  if r < 1 / 2 then f
  else if 1 / 2 < r then f + 1
  else if f % 2 = 0 then f else f + 1

/-- The call `convertTo(dst, CV_8UC1, alpha, beta)`, per element. -/
def convertToU8 (alpha beta v : ℚ) : Nat :=
  saturate_u8 (cvRound (v * alpha + beta))

/-- The byte of `thresholdedDiff` for a distance (lines 382-383). At the
threshold 0 the scale `- 255.0 / thresh` is the negative infinity, the scaled
value is infinite or not a number, and its conversion to a byte gives 0. -/
def thresholdedByte (thresh d : ℚ) : Nat :=
  if thresh = 0 then 0
  else convertToU8 (-255 / thresh) 255 (thresholdTrunc thresh d)

/-- The matrix `thresholdedDiff` of `computeColorDiff`. -/
def thresholdedDiff (thresh : ℚ) (dists : Mat ℚ) : Mat Nat :=
  ⟨dists.rows, dists.cols, fun i j => thresholdedByte thresh (dists.px i j)⟩

/-- The element `data[i]` of a continuous single-channel matrix. -/
def Mat.dataAt {α : Type} (m : Mat α) (i : Nat) : α :=
  m.px (i / m.cols) (i % m.cols)

/-- The mask `cardMasks[color]` after the loop of lines 394-400: a pixel is 1
when its byte in `thresholdedDiff` is non-zero and its palette index divided
by the gradations is `color`. -/
def rawCardMask (G : Nat) (diff : Mat Nat) (indices : Mat Int) (color : Nat) : Mat Nat :=
  ⟨indices.rows, indices.cols, fun r c =>
    let i := r * indices.cols + c
    if diff.dataAt i ≠ 0 ∧ Int.tdiv (indices.dataAt i) G = color then 1 else 0⟩

/-- The pixels of the 3 x 3 window around (i, j) that lie inside the matrix. -/
def window3 (rows cols i j : Nat) : List (Nat × Nat) :=
  (allPixels rows cols).filter fun q =>
    decide (i ≤ q.1 + 1 ∧ q.1 ≤ i + 1 ∧ j ≤ q.2 + 1 ∧ q.2 ≤ j + 1)

/-- Erosion with the default 3 x 3 element; pixels outside the matrix do not count. -/
def erode (m : Mat Nat) : Mat Nat :=
  ⟨m.rows, m.cols, fun i j => ((window3 m.rows m.cols i j).map fun q => m.px q.1 q.2).foldl min 255⟩

/-- Dilation with the default 3 x 3 element; pixels outside the matrix do not count. -/
def dilate (m : Mat Nat) : Mat Nat :=
  ⟨m.rows, m.cols, fun i j => ((window3 m.rows m.cols i j).map fun q => m.px q.1 q.2).foldl max 0⟩

/-- The call `cv::morphologyEx(m, m, cv::MORPH_OPEN, cv::Mat())`. -/
def morphOpen (m : Mat Nat) : Mat Nat :=
  dilate (erode m)

/-- The threshold of `computeColorDiff` for the slider value (lines 378-379). -/
def colorDiffThresh (sliderValue : Int) : ℚ :=
  3 * (sliderValue : ℚ) * (sliderValue : ℚ)

/-- The method `SnapshotModel::computeColorDiff` with the value of the
"colorDiffThreshold" slider. -/
def computeColorDiff (E : Env) (s : SnapshotModel) (sliderValue : Int) : SnapshotModel :=
  let thresh := colorDiffThresh sliderValue
  let r1 := getMatrix E s "dists"
  let diff := thresholdedDiff thresh r1.2.asF32
  let r2 := getMatrix E r1.1 "indices"
  let indices := r2.2.asS32
  let r3 := getMatrix E r2.1 "paletteRGB"
  let lut := r3.2.asU8
  let cardMasks : Nat → Mat Nat := fun color =>
    morphOpen (rawCardMask E.COLOR_GRADATIONS diff indices color)
  let s1 := (List.range 3).foldl
    (fun st i => setMatrix st ("count.contours." ++ s_colorNames.getD i "") (.u8 (cardMasks i)))
    r3.1
  let colorDiff : Mat Color3b := ⟨indices.rows, indices.cols, fun r c =>
    let i := r * indices.cols + c
    let index := indices.dataAt i
    let color := (Int.tdiv index E.COLOR_GRADATIONS).toNat
    if (cardMasks color).dataAt i ≠ 0 then
      (lut.dataAt (index.toNat * 3), lut.dataAt (index.toNat * 3 + 1),
        lut.dataAt (index.toNat * 3 + 2))
    else (0, 0, 0)⟩
  clearLayer (setMatrix s1 "colorDiff" (.u8c3 colorDiff)) "count.colorDiff"

/-! ## Counting: countCards -/

/-- The area `cv::contourArea(contour)`: half the absolute value of the
shoelace sum over the closed contour. -/
def contourArea (contour : Contour) : ℚ :=
  match contour with
  | [] => 0
  | first :: _ =>
    let next := contour.tail ++ [first]
    let a00 : Int := ((contour.zip next).map fun e => e.1.1 * e.2.2 - e.2.1 * e.1.2).sum
    |(a00 : ℚ)| / 2

/-- The loop of `countCards` over the traced contours (lines 442-459): the
polygons it commits, in order. A contour is skipped when `minSize` exceeds
its area. -/
def countCardsLoop (E : Env) (minSize : Int) : List Contour → List Polygon
  | [] => []
  | contour :: rest =>
    if (minSize : ℚ) > contourArea contour then countCardsLoop E minSize rest
    else E.toQPolygon (E.approxPolyDP contour 1) :: countCardsLoop E minSize rest

/-- One round of the outer loop of `countCards` (lines 433-459) for a colour. -/
def countCardsLayer (E : Env) (minSize : Int) (s : SnapshotModel) (color : String) :
    SnapshotModel :=
  let layerName := "count.contours." ++ color
  let r := getMatrix E s layerName
  let contours := E.findContours r.2.asU8
  let s1 := clearLayer r.1 layerName
  { s1 with polys := s1.polys ++
      (countCardsLoop E minSize contours).map fun polygon => ⟨layerName, polygon⟩ }

/-- The value an `int` variable holds after an arithmetic result `v`: the
representative of `v` modulo `2^32` in the range of a 32 bit signed integer
(the two's complement result of the machine multiplication). -/
def wrapInt32 (v : Int) : Int := (v + 2147483648) % 4294967296 - 2147483648

/-- The local `minSize` of `countCards` after lines 429-430: the value of the
"sizeFilter" control read into an `int` and multiplied by itself in place
(`minSize *= minSize`), a product of 32 bit integers. -/
def countCardsMinSize (sizeFilter : Int) : Int :=
  wrapInt32 (wrapInt32 sizeFilter * wrapInt32 sizeFilter)

/-- The method `SnapshotModel::countCards` with the value of the "sizeFilter"
control. -/
def countCards (E : Env) (s : SnapshotModel) (sizeFilter : Int) : SnapshotModel :=
  s_colorNames.foldl (countCardsLayer E (countCardsMinSize sizeFilter)) s

/-- The polygons a routine committed to a layer. -/
def polygonsOf (s : SnapshotModel) (layerName : String) : List Polygon :=
  (s.polys.filter fun p => decide (p.layer = layerName)).map PolyItem.polygon


/-! ## Concrete inputs -/

/-- A concrete environment for evaluating the model on explicit inputs: four
gradations per colour; a clustering that makes each of the first four
samples a centre (fewer clusters when there are fewer samples); colour
conversions that keep the channel values; no contours or polygons from the
geometry routines. -/
def exampleEnv : Env where
  COLOR_GRADATIONS := 4
  hierarchicalClustering := fun samples =>
    (min 4 samples.length, fun r c =>
      let p := samples.getD r (0, 0, 0)
      if c = 0 then p.1 else if c = 1 then p.2.1 else p.2.2)
  rgb2lab := fun p => ((p.1 : ℚ), (p.2.1 : ℚ), (p.2.2 : ℚ))
  lab2rgb := fun p => (p.1.floor.toNat, p.2.1.floor.toNat, p.2.2.floor.toNat)
  findContours := fun _ => []
  approxPolyDP := fun c _ => c
  shapeContainsPoint := fun _ _ _ => false
  shapeIntersects := fun _ _ => false
  shapeInside := fun _ _ => false
  boundingRect := fun _ => ⟨0, 0, -1, -1⟩
  united := fun a b => a ++ b
  convexHull := fun p => p
  fillPolyCovers := fun _ _ _ => false
  knnSearch := fun _ _ => (0, 0)
  toQt := fun r => ⟨r.x, r.y, r.x + r.width - 1, r.y + r.height - 1⟩
  toCv := fun r => ⟨r.x1, r.y1, r.x2 - r.x1 + 1, r.y2 - r.y1 + 1⟩
  toQPolygon := fun c => c.map fun q => ((q.1 : ℚ), (q.2 : ℚ))
  toCvPoint := fun q => (q.1.floor, q.2.floor)
  dflt_addToScene := true
  dflt_maskROI := ⟨0, 0, 0, 0⟩
  dflt_simple := 1
  dflt_paintToMask := false

/-- A model right after construction: the given image with zero padding
bytes, nothing cached but the given matrices, mode INERT, colour "green", no
classifier, no polygons, no files. -/
def freshModel (input : Mat Color3b) (matrices : QMap CvMat) : SnapshotModel where
  input := input
  inputPadding := fun _ => 0
  m_matrices := matrices
  m_mode := Mode.INERT
  m_color := "green"
  m_flann := none
  polys := []
  cacheFiles := fun _ => none
  paletteFile := none
  flannFile := none
  log := []

/-- A 1 x 2 image: pixel (0,0) is (10,20,30), pixel (0,1) is (200,100,50). -/
def twoPixelImage : Mat Color3b :=
  ⟨1, 2, fun _ j => if j = 0 then (10, 20, 30) else (200, 100, 50)⟩

/-- A 1 x 5 image with five different colours: pixel (0, j) is
(40 j + 10, 20 j, 5 j + 1). -/
def fivePixelImage : Mat Color3b :=
  ⟨1, 5, fun _ j => (40 * j + 10, 20 * j, 5 * j + 1)⟩

/-- Training state in which the green mask has no marked pixel and the pink
mask marks the four pixels of columns 1 to 4. -/
def pinkOnlyModel : SnapshotModel :=
  freshModel fivePixelImage
    [("train.contours.green", .u8 (Mat.fill 1 5 0)),
     ("train.contours.pink", .u8 ⟨1, 5, fun _ j => if 1 ≤ j then 255 else 0⟩)]


/-- A 3 x 3 image: the centre pixel is (100,100,100), the others are black. -/
def dotImage : Mat Color3b :=
  ⟨3, 3, fun i j => if i = 1 ∧ j = 1 then (100, 100, 100) else (0, 0, 0)⟩

/-- A 3 x 4 image (three rows of four pixels, so that a scanline has no
padding): the pixel of row 1 and column 1 is (100,100,100), the others are
black. -/
def wideDotImage : Mat Color3b :=
  ⟨3, 4, fun i j => if i = 1 ∧ j = 1 then (100, 100, 100) else (0, 0, 0)⟩

/-- A 4 x 4 image: the 2 x 2 block of rows 1-2 and columns 1-2 is
(100,100,100), the other pixels are black. -/
def blockImage : Mat Color3b :=
  ⟨4, 4, fun i j => if 1 ≤ i ∧ i ≤ 2 ∧ 1 ≤ j ∧ j ≤ 2 then (100, 100, 100) else (0, 0, 0)⟩

/-- The "lab" image the operations read through the cache. -/
def labImage (E : Env) (s : SnapshotModel) : Mat Color3f :=
  (getMatrix E s "lab").2.asF32C3

/-- The 4 x 4 block image with a blank green training mask and no polygons. -/
def blockBlankModel : SnapshotModel :=
  freshModel blockImage [("train.contours.green", .u8 (Mat.fill 4 4 0))]

/-- A 1 x 2 distance raster: distance 0 at column 0 and distance 5 at column 1. -/
def exampleDists : Mat ℚ :=
  ⟨1, 2, fun _ j => if j = 0 then 0 else 5⟩

/-- The contour of the square with corners (0,0), (2,0), (2,2), (0,2): area 4. -/
def squareContour : Contour := [(0, 0), (2, 0), (2, 2), (0, 2)]

/-- The contour of a single pixel: area 0. -/
def pointContour : Contour := [(1, 1)]

/-- The concrete environment with a contour tracer that reports the single
pixel contour and the square contour for every mask. -/
def tracingEnv : Env :=
  { exampleEnv with findContours := fun _ => [pointContour, squareContour] }

/-- Counting state on the 3 x 3 image with a blank green count mask. -/
def countModel : SnapshotModel :=
  freshModel dotImage [("count.contours.green", .u8 (Mat.fill 3 3 0))]

/-- The concrete environment with a scene that reports every polygon as
lying inside every rectangle. -/
def insideEnv : Env :=
  { exampleEnv with shapeInside := fun _ _ => true }

/-- A training state with two green polygons and one pink polygon. -/
def mergeModel : SnapshotModel :=
  { freshModel dotImage
      [("train.contours.green", .u8 (Mat.fill 3 3 0)),
       ("train.contours.pink", .u8 (Mat.fill 3 3 0))] with
    polys :=
      [⟨"train.contours.green", [(0, 0), (1, 0), (1, 1)]⟩,
       ⟨"train.contours.pink", [(2, 2), (2, 1), (1, 2)]⟩,
       ⟨"train.contours.green", [(1, 1), (2, 1), (2, 2)]⟩] }

/-- The state after construction on the 3 x 3 image, switched to COUNT mode;
no palette was trained or loaded. -/
def untrainedCountModel : SnapshotModel :=
  { freshModel dotImage [] with m_mode := Mode.COUNT }

/-- Training state in which the green mask marks the single pixel (0,0) and
no other training mask exists. -/
def singleSampleModel : SnapshotModel :=
  freshModel fivePixelImage
    [("train.contours.green", .u8 ⟨1, 5, fun _ j => if j = 0 then 255 else 0⟩)]

/-- The matrix `thresholdedDiff` that `computeColorDiff` derives from the cached
"dists" for a slider value. -/
def cachedDiff (E : Env) (s : SnapshotModel) (sliderValue : Int) : Mat Nat :=
  thresholdedDiff (colorDiffThresh sliderValue) (getMatrix E s "dists").2.asF32

/-- The matrix `indices` that `computeColorDiff` reads from the cache. -/
def cachedIndices (E : Env) (s : SnapshotModel) : Mat Int :=
  (getMatrix E (getMatrix E s "dists").1 "indices").2.asS32

/-- The mask `cardMasks[color]` of `computeColorDiff` before the opening. -/
def cardMaskRaw (E : Env) (s : SnapshotModel) (sliderValue : Int) (color : Nat) : Mat Nat :=
  rawCardMask E.COLOR_GRADATIONS (cachedDiff E s sliderValue) (cachedIndices E s) color

/-- The mask `cardMasks[color]` of `computeColorDiff` after the opening, as it
is stored under "count.contours." plus the colour name. -/
def cardMaskOpened (E : Env) (s : SnapshotModel) (sliderValue : Int) (color : Nat) : Mat Nat :=
  morphOpen (cardMaskRaw E s sliderValue color)

/-- A classified state on the 3 x 3 image with four gradations: the palette
indices are 0, 5 and 9 in the columns 0, 1 and 2, all distances are 1. -/
def classifiedModel : SnapshotModel :=
  freshModel dotImage
    [("dists", .f32 (Mat.fill 3 3 1)),
     ("indices", .s32 ⟨3, 3, fun _ j => if j = 0 then 0 else if j = 1 then 5 else 9⟩)]

/-- The mask dimension invariant: every cached matrix under a tag containing
".contours." has the rows and columns of the working image. -/
def maskDimsOk (s : SnapshotModel) : Prop :=
  ∀ tag m, strContains tag ".contours." = true → s.m_matrices.value tag = some m →
    m.rows = s.input.rows ∧ m.cols = s.input.cols

/-- The mask of a layer in the cache, read as bytes. -/
def maskOf (s : SnapshotModel) (tag : String) : Option (Mat Nat) :=
  (s.m_matrices.value tag).map CvMat.asU8

/-- The byte of the mask of a layer at (row, col) in the result of an
operation; `none` when the operation threw or the mask is not cached. -/
def maskByte (r : Except String SnapshotModel) (tag : String) (i j : Nat) : Option Nat :=
  match r with
  | .ok s => (maskOf s tag).map fun m => m.px i j
  | .error _ => none


/-- Training state in which no training mask has a marked pixel: the green
mask is blank and the other two were never created. -/
def blankTrainingModel : SnapshotModel :=
  freshModel twoPixelImage [("train.contours.green", .u8 (Mat.fill 1 2 0))]

/-! # Theorems -/

/-! ## The cache -/

theorem QMap.value_insert_self {α : Type} (m : QMap α) (k : String) (v : α) :
    (QMap.insert m k v).value k = some v := by
  induction m with
  | nil => simp [QMap.insert, QMap.value]
  | cons e t ih =>
    obtain ⟨k1, v1⟩ := e
    unfold QMap.insert
    by_cases h1 : k1 = k
    · simp [h1, QMap.value]
    · by_cases h2 : strLt k k1 = true
      · simp [h1, h2, QMap.value]
      · simp [h1, h2, QMap.value, ih]

theorem QMap.value_insert_of_ne {α : Type} (m : QMap α) (k k2 : String) (v : α)
    (h : k2 ≠ k) : (QMap.insert m k v).value k2 = m.value k2 := by
  induction m with
  | nil => simp [QMap.insert, QMap.value, Ne.symm h]
  | cons e t ih =>
    obtain ⟨k1, v1⟩ := e
    unfold QMap.insert
    by_cases h1 : k1 = k
    · subst h1
      simp [QMap.value, Ne.symm h]
    · by_cases h2 : strLt k k1 = true
      · simp [h1, h2, QMap.value, Ne.symm h]
      · by_cases h3 : k1 = k2
        · subst h3
          simp [h1, h2, QMap.value]
        · simp [h1, h2, QMap.value, h3, ih]

theorem QMap.contains_eq_isSome {α : Type} (m : QMap α) (k : String) :
    m.contains k = (m.value k).isSome := by
  induction m with
  | nil => simp [QMap.contains, QMap.value]
  | cons e t ih =>
    obtain ⟨k1, v1⟩ := e
    by_cases h1 : k1 = k
    · simp [QMap.contains, QMap.value, h1]
    · have := ih
      simp only [QMap.contains] at this
      simp [QMap.contains, QMap.value, h1, this]

theorem QMap.value_of_mem_keys {α : Type} (m : QMap α) (k : String) (h : k ∈ m.keys) :
    ∃ v, m.value k = some v := by
  induction m with
  | nil => simp [QMap.keys] at h
  | cons e t ih =>
    obtain ⟨k1, v1⟩ := e
    by_cases h1 : k1 = k
    · exact ⟨v1, by simp [QMap.value, h1]⟩
    · have : k ∈ QMap.keys t := by
        simp only [QMap.keys, List.map_cons, List.mem_cons] at h
        rcases h with h | h
        · exact absurd h.symm h1
        · exact h
      obtain ⟨v, hv⟩ := ih this
      exact ⟨v, by simp [QMap.value, h1, hv]⟩

theorem QMap.value_remove_self {α : Type} (m : QMap α) (k : String) :
    (QMap.remove m k).value k = none := by
  induction m with
  | nil => simp [QMap.remove, QMap.value]
  | cons e t ih =>
    obtain ⟨k1, v1⟩ := e
    by_cases h1 : k1 = k
    · simpa [QMap.remove, List.filter, h1] using ih
    · simp only [QMap.remove] at ih
      simp [QMap.remove, List.filter, h1, QMap.value, ih]

theorem QMap.value_remove_of_ne {α : Type} (m : QMap α) (k k2 : String) (h : k2 ≠ k) :
    (QMap.remove m k).value k2 = m.value k2 := by
  induction m with
  | nil => simp [QMap.remove, QMap.value]
  | cons e t ih =>
    obtain ⟨k1, v1⟩ := e
    simp only [QMap.remove] at ih
    by_cases h1 : k1 = k
    · subst h1
      simp [QMap.remove, List.filter, QMap.value, ih, Ne.symm h]
    · by_cases h3 : k1 = k2
      · subst h3
        simp [QMap.remove, List.filter, h1, QMap.value]
      · simp [QMap.remove, List.filter, h1, QMap.value, h3, ih]

theorem getMatrix_hit (E : Env) (s : SnapshotModel) (tag : String) (m : CvMat)
    (h : s.m_matrices.value tag = some m) : getMatrix E s tag = (s, m) := by
  simp [getMatrix, h]

theorem getMatrixLeaf_hit (s : SnapshotModel) (tag : String) (m : CvMat)
    (h : s.m_matrices.value tag = some m) : getMatrixLeaf s tag = (s, m) := by
  simp [getMatrixLeaf, h]

theorem getMatrixLeaf_value_of_some (s : SnapshotModel) (tag k : String) (v : CvMat)
    (h : s.m_matrices.value k = some v) :
    (getMatrixLeaf s tag).1.m_matrices.value k = some v := by
  unfold getMatrixLeaf
  cases ht : s.m_matrices.value tag with
  | some m => simpa using h
  | none =>
    have hne : k ≠ tag := by
      intro hk
      rw [hk, ht] at h
      exact absurd h (by simp)
    simp [setMatrix, QMap.value_insert_of_ne _ _ _ _ hne, h]

/-- A matrix the cache already holds is what every later `getMatrix` leaves
under its tag. -/
theorem getMatrix_value_of_some (E : Env) (s : SnapshotModel) (tag k : String) (v : CvMat)
    (h : s.m_matrices.value k = some v) :
    (getMatrix E s tag).1.m_matrices.value k = some v := by
  unfold getMatrix
  cases ht : s.m_matrices.value tag with
  | some m => simpa using h
  | none =>
    have hne : k ≠ tag := by
      intro hk
      rw [hk, ht] at h
      exact absurd h (by simp)
    simp only []
    split_ifs
    · simp [setMatrix, QMap.value_insert_of_ne _ _ _ _ hne,
        getMatrixLeaf_value_of_some s "input" k v h]
    · exact getMatrixLeaf_value_of_some s tag k v h
    · simp [setMatrix, QMap.value_insert_of_ne _ _ _ _ hne,
        getMatrixLeaf_value_of_some s "paletteLab" k v h]
    · exact getMatrixLeaf_value_of_some s tag k v h

theorem getMatrixLeaf_value_of_ne (s : SnapshotModel) (tag k : String) (h : k ≠ tag) :
    (getMatrixLeaf s tag).1.m_matrices.value k = s.m_matrices.value k := by
  unfold getMatrixLeaf
  cases s.m_matrices.value tag with
  | some m => rfl
  | none => simp [setMatrix, QMap.value_insert_of_ne _ _ _ _ h]

/-- A miss of `getMatrix` touches the tag asked for and, for "lab" and
"paletteRGB", the tag it is derived from; every other tag keeps its entry. -/
theorem getMatrix_value_of_ne (E : Env) (s : SnapshotModel) (tag k : String)
    (h : k ≠ tag) (h1 : k ≠ "input") (h2 : k ≠ "paletteLab") :
    (getMatrix E s tag).1.m_matrices.value k = s.m_matrices.value k := by
  unfold getMatrix
  cases s.m_matrices.value tag with
  | some m => rfl
  | none =>
    simp only []
    split_ifs
    · simp [setMatrix, QMap.value_insert_of_ne _ _ _ _ h, getMatrixLeaf_value_of_ne s _ k h1]
    · exact getMatrixLeaf_value_of_ne s tag k h
    · simp [setMatrix, QMap.value_insert_of_ne _ _ _ _ h, getMatrixLeaf_value_of_ne s _ k h2]
    · exact getMatrixLeaf_value_of_ne s tag k h

theorem getMatrix_value_self (E : Env) (s : SnapshotModel) (tag : String) :
    (getMatrix E s tag).1.m_matrices.value tag = some (getMatrix E s tag).2 := by
  unfold getMatrix
  cases hv : s.m_matrices.value tag with
  | some m => exact hv
  | none =>
    simp only []
    split_ifs
    · simp [setMatrix, QMap.value_insert_self]
    · simp [getMatrixLeaf, hv, setMatrix, QMap.value_insert_self]
    · simp [setMatrix, QMap.value_insert_self]
    · simp [getMatrixLeaf, hv, setMatrix, QMap.value_insert_self]

theorem getMatrix_paletteRGB_miss (E : Env) (s : SnapshotModel) (pal : CvMat)
    (h1 : s.m_matrices.value "paletteRGB" = none)
    (h2 : s.m_matrices.value "paletteLab" = some pal) :
    ∃ rgb, getMatrix E s "paletteRGB" = (setMatrix s "paletteRGB" rgb, rgb) := by
  have e1 : ¬ ("paletteRGB" = "lab") := by decide
  have e2 : strContains "paletteRGB" ".contours." = false := by decide
  unfold getMatrix
  simp only [h1, e1, e2, if_false, getMatrixLeaf_hit s "paletteLab" pal h2, if_true,
    Bool.false_eq_true]
  exact ⟨_, rfl⟩

/-- What `getMatrix` returns for a mask tag: the cached matrix, or a zero
mask of the input size. -/
theorem getMatrix_contours_result (E : Env) (s : SnapshotModel) (tag : String)
    (h1 : tag ≠ "lab") (h2 : strContains tag ".contours." = true) :
    (getMatrix E s tag).2 =
      (s.m_matrices.value tag).getD (.u8 (Mat.fill s.input.rows s.input.cols 0)) := by
  unfold getMatrix
  cases hv : s.m_matrices.value tag with
  | some m => rfl
  | none => simp [h1, h2, getMatrixLeaf, hv, newMatrix]

theorem getMatrixLeaf_polys (s : SnapshotModel) (tag : String) :
    (getMatrixLeaf s tag).1.polys = s.polys := by
  unfold getMatrixLeaf
  cases s.m_matrices.value tag <;> simp [setMatrix]

theorem getMatrix_polys (E : Env) (s : SnapshotModel) (tag : String) :
    (getMatrix E s tag).1.polys = s.polys := by
  unfold getMatrix
  cases s.m_matrices.value tag with
  | some m => rfl
  | none =>
    simp only []
    split_ifs <;> simp [setMatrix, getMatrixLeaf_polys]

theorem getMatrixLeaf_input (s : SnapshotModel) (tag : String) :
    (getMatrixLeaf s tag).1.input = s.input := by
  unfold getMatrixLeaf
  cases s.m_matrices.value tag <;> simp [setMatrix]

theorem getMatrix_input (E : Env) (s : SnapshotModel) (tag : String) :
    (getMatrix E s tag).1.input = s.input := by
  unfold getMatrix
  cases s.m_matrices.value tag with
  | some m => rfl
  | none =>
    simp only []
    split_ifs <;> simp [setMatrix, getMatrixLeaf_input]

theorem getMatrixLeaf_flann (s : SnapshotModel) (tag : String) :
    (getMatrixLeaf s tag).1.m_flann = s.m_flann := by
  unfold getMatrixLeaf
  cases s.m_matrices.value tag <;> simp [setMatrix]

theorem getMatrix_flann (E : Env) (s : SnapshotModel) (tag : String) :
    (getMatrix E s tag).1.m_flann = s.m_flann := by
  unfold getMatrix
  cases s.m_matrices.value tag with
  | some m => rfl
  | none =>
    simp only []
    split_ifs <;> simp [setMatrix, getMatrixLeaf_flann]

/-! ## Training -/

theorem copyToRowRange_px (p0 centers p : Mat ℚ) (a b : Nat)
    (h : copyToRowRange p0 centers a b = .ok p) (r col : Nat) :
    p.px r col = if a ≤ r ∧ r < b then centers.px (r - a) col else p0.px r col := by
  unfold copyToRowRange at h
  split_ifs at h
  simp only [Except.ok.injEq] at h
  rw [← h]

theorem assemblePalette_frame (G : Nat) (cs : List Centers) :
    ∀ (p0 : Mat ℚ) (i0 : Nat) (p : Mat ℚ), assemblePalette G p0 i0 cs = .ok p →
      ∀ r col, r < i0 * G → p.px r col = p0.px r col := by
  induction cs with
  | nil =>
    intro p0 i0 p h r col _
    simp only [assemblePalette, Except.ok.injEq] at h
    rw [h]
  | cons c rest ih =>
    intro p0 i0 p h r col hr
    simp only [assemblePalette] at h
    cases hc : copyToRowRange p0 c.centers (i0 * G) ((i0 + 1) * G) with
    | error e => simp [hc] at h
    | ok p1 =>
      simp only [hc] at h
      have hr2 : r < (i0 + 1) * G := lt_of_lt_of_le hr (Nat.mul_le_mul_right G (Nat.le_succ i0))
      rw [ih p1 (i0 + 1) p h r col hr2, copyToRowRange_px _ _ _ _ _ hc]
      have : ¬ (i0 * G ≤ r ∧ r < (i0 + 1) * G) := fun hh => absurd hr (not_lt.mpr hh.1)
      rw [if_neg this]

/-- The copy loop of `on_learn_clicked` leaves element `k` of `centers_list`
in the palette rows from `(i0 + k) * G` up to `(i0 + k + 1) * G`. -/
theorem assemblePalette_row (G : Nat) (cs : List Centers) :
    ∀ (p0 : Mat ℚ) (i0 : Nat) (p : Mat ℚ), assemblePalette G p0 i0 cs = .ok p →
      ∀ (k : Nat) (c0 : Centers), cs.get? k = some c0 →
        ∀ r col, (i0 + k) * G ≤ r → r < (i0 + k + 1) * G →
          p.px r col = c0.centers.px (r - (i0 + k) * G) col := by
  induction cs with
  | nil =>
    intro p0 i0 p _ k c0 hk
    simp at hk
  | cons c rest ih =>
    intro p0 i0 p h k c0 hk r col h1 h2
    simp only [assemblePalette] at h
    cases hc : copyToRowRange p0 c.centers (i0 * G) ((i0 + 1) * G) with
    | error e => simp [hc] at h
    | ok p1 =>
      simp only [hc] at h
      cases k with
      | zero =>
        simp only [List.get?_cons_zero, Option.some.injEq] at hk
        subst hk
        simp only [Nat.add_zero] at h1 h2
        rw [assemblePalette_frame G rest p1 (i0 + 1) p h r col h2,
          copyToRowRange_px _ _ _ _ _ hc, if_pos ⟨h1, h2⟩]
        simp
      | succ k =>
        simp only [List.get?_cons_succ] at hk
        have e1 : i0 + (k + 1) = i0 + 1 + k := by omega
        rw [e1] at h1 h2 ⊢
        exact ih p1 (i0 + 1) p h k c0 hk r col h1 h2

/-- C1 (code defect). With a blank green mask and a pink mask marking four
pixels of different colours, the loop of `on_learn_clicked` skips green, so
the only element of `centers_list` comes from "train.contours.pink"; it is
copied into the palette rows 0-3 (row 0 holds the Lab triple (50,20,6) of the
first marked pink pixel, row 3 the triple (170,80,21) of the last), while the
consumers of the palette give rows 0-3 the group `s_colorNames[i / 4]`, which
is "green". -/
theorem on_learn_clicked_skipped_group_mislabels :
    samplePixels (labImage exampleEnv pinkOnlyModel) (Mat.fill 1 5 0) = [] ∧
    (learnedCenters exampleEnv pinkOnlyModel).map
      (fun c => (c.tag, c.n_clusters)) = [("train.contours.pink", 4)] ∧
    (∀ i < 4, paletteRowSource exampleEnv pinkOnlyModel i = some "train.contours.pink" ∧
      colorGroupOf exampleEnv i = some "green") ∧
    ∃ s, on_learn_clicked exampleEnv pinkOnlyModel = .ok s ∧
      ((s.m_matrices.value "paletteLab").map fun m =>
        (m.rows, (m.asF32.px 0 0, m.asF32.px 0 1, m.asF32.px 0 2),
          (m.asF32.px 3 0, m.asF32.px 3 1, m.asF32.px 3 2))) =
        some (4, (50, 20, 6), (170, 80, 21)) := by
  refine ⟨by decide, by decide, by decide, _, rfl, ?_⟩
  decide

theorem learnLoop_no_samples (E : Env) (input : Mat Color3f) (ks : List String) :
    ∀ s : SnapshotModel,
      (∀ tag ∈ ks, strStartsWith tag "train.contours." = true →
        ∃ m, s.m_matrices.value tag = some m ∧ samplePixels input m.asU8 = []) →
      learnLoop E input s ks = (s, []) := by
  induction ks with
  | nil => intro s _; rfl
  | cons tag rest ih =>
    intro s h
    have hrest := ih s (fun t ht => h t (List.mem_cons_of_mem _ ht))
    unfold learnLoop
    by_cases hp : strStartsWith tag "train.contours." = true
    · obtain ⟨m, hm, hs⟩ := h tag (List.mem_cons_self _ _) hp
      simp [hp, getMatrix_hit E s tag m hm, hs, hrest]
    · simp [hp, hrest]

/-- C4 (amended). When no training mask has a marked pixel, `on_learn_clicked`
returns normally, stores a palette of zero rows as "paletteLab", and
`buildFlannRecognizer` installs in `m_flann` an index built over that empty
palette: the code has no insufficient-training-data check. -/
theorem on_learn_clicked_no_training_data (E : Env) (s : SnapshotModel)
    (h : ∀ tag m, strStartsWith tag "train.contours." = true →
      s.m_matrices.value tag = some m → samplePixels (labImage E s) m.asU8 = []) :
    ∃ s2, on_learn_clicked E s = .ok s2 ∧
      s2.m_matrices.value "paletteLab" = some (.f32 ⟨0, 3, fun _ _ => 0⟩) ∧
      s2.m_flann = some ⟨.f32 ⟨0, 3, fun _ _ => 0⟩⟩ := by
  have hloop : learnLoop E (getMatrix E s "lab").2.asF32C3 (getMatrix E s "lab").1
      (getMatrix E s "lab").1.m_matrices.keys = ((getMatrix E s "lab").1, []) := by
    apply learnLoop_no_samples
    intro tag htag hp
    obtain ⟨m, hm⟩ := QMap.value_of_mem_keys _ tag htag
    have n1 : tag ≠ "lab" := by
      intro hk; rw [hk] at hp; exact absurd hp (by decide)
    have n2 : tag ≠ "input" := by
      intro hk; rw [hk] at hp; exact absurd hp (by decide)
    have n3 : tag ≠ "paletteLab" := by
      intro hk; rw [hk] at hp; exact absurd hp (by decide)
    rw [getMatrix_value_of_ne E s "lab" tag n1 n2 n3] at hm
    exact ⟨m, by rw [getMatrix_value_of_ne E s "lab" tag n1 n2 n3, hm], h tag m hp hm⟩
  unfold on_learn_clicked
  simp only [hloop, centersCount, List.map_nil, List.sum_nil, assemblePalette]
  generalize hs1 : (getMatrix E s "lab").1 = s0
  have v1 : (setMatrix { s0 with m_matrices := s0.m_matrices.remove "paletteRGB" } "paletteLab"
      (.f32 ⟨0, 3, fun _ _ => 0⟩)).m_matrices.value "paletteRGB" = none := by
    simp only [setMatrix]
    rw [QMap.value_insert_of_ne _ _ _ _ (by decide), QMap.value_remove_self]
  have v2 : (setMatrix { s0 with m_matrices := s0.m_matrices.remove "paletteRGB" } "paletteLab"
      (.f32 ⟨0, 3, fun _ _ => 0⟩)).m_matrices.value "paletteLab"
        = some (.f32 ⟨0, 3, fun _ _ => 0⟩) := by
    simp only [setMatrix]
    rw [QMap.value_insert_self]
  obtain ⟨rgb, hrgb⟩ := getMatrix_paletteRGB_miss E _ _ v1 v2
  generalize hs2 : setMatrix { s0 with m_matrices := s0.m_matrices.remove "paletteRGB" }
    "paletteLab" (.f32 ⟨0, 3, fun _ _ => 0⟩) = sA at v1 v2 hrgb
  have v3 : (setMatrix sA "paletteRGB" rgb).m_matrices.value "paletteLab"
      = some (.f32 ⟨0, 3, fun _ _ => 0⟩) := by
    simp only [setMatrix]
    rw [QMap.value_insert_of_ne _ _ _ _ (by decide), v2]
  have v4 : (setMatrix sA "paletteRGB" rgb).m_matrices.value "paletteRGB" = some rgb := by
    simp only [setMatrix]
    rw [QMap.value_insert_self]
  have v3c : (clearLayer (setMatrix sA "paletteRGB" rgb) "train.palette").m_matrices.value
      "paletteLab" = some (.f32 ⟨0, 3, fun _ _ => 0⟩) := v3
  have v4c : (clearLayer (setMatrix sA "paletteRGB" rgb) "train.palette").m_matrices.value
      "paletteRGB" = some rgb := v4
  refine ⟨_, rfl, ?_, ?_⟩
  · simp only [showPalette, hrgb, buildFlannRecognizer,
      getMatrix_hit E _ "paletteLab" _ v3c]
    rw [getMatrix_hit E _ "paletteRGB" rgb (by simpa using v4c)]
    exact v3c
  · simp only [showPalette, hrgb, buildFlannRecognizer,
      getMatrix_hit E _ "paletteLab" _ v3c]
    rw [getMatrix_hit E _ "paletteRGB" rgb (by simpa using v4c)]

/-- Witness for C4: the blank training state satisfies the hypothesis and gets
the empty palette and an index over it. -/
theorem on_learn_clicked_no_training_data_witness :
    (∀ tag m, strStartsWith tag "train.contours." = true →
      blankTrainingModel.m_matrices.value tag = some m →
      samplePixels (labImage exampleEnv blankTrainingModel) m.asU8 = []) ∧
    ∃ s2, on_learn_clicked exampleEnv blankTrainingModel = .ok s2 ∧
      s2.m_matrices.value "paletteLab" = some (.f32 ⟨0, 3, fun _ _ => 0⟩) ∧
      s2.m_flann = some ⟨.f32 ⟨0, 3, fun _ _ => 0⟩⟩ := by
  have hyp : ∀ tag m, strStartsWith tag "train.contours." = true →
      blankTrainingModel.m_matrices.value tag = some m →
      samplePixels (labImage exampleEnv blankTrainingModel) m.asU8 = [] := by
    intro tag m _ hv
    simp only [blankTrainingModel, freshModel, QMap.value] at hv
    split_ifs at hv
    cases hv
    decide
  exact ⟨hyp, on_learn_clicked_no_training_data exampleEnv blankTrainingModel hyp⟩

/-- Counterexample to C4 as stated: with a blank green mask and no other
training mask, `on_learn_clicked` returns normally and leaves in `m_flann` a
classifier whose dataset has zero rows. -/
theorem on_learn_clicked_installs_index_over_empty_palette :
    ∃ s2, on_learn_clicked exampleEnv blankTrainingModel = .ok s2 ∧
      s2.m_flann.isSome = true ∧
      (s2.m_flann.map fun i => i.dataset.rows) = some 0 := by
  refine ⟨_, rfl, ?_, ?_⟩ <;> decide

/-! ## Picking -/

/-- C2 (code defect). On the 3 x 4 image whose pixel (1,1) differs from its
neighbours, the fill from seed (1,1) with tolerance 0 grows (area 1, bounding
rectangle (1,1,1,1), mask pixel (2,2) set), yet after `floodPickContour` on a
blank mask the byte of the seed pixel (1,1) is still 0: the merge reads the
scratch mask at `bounds` and writes the target at `bounds - (1,1)`, which is
the pixel (0,0), not reached by the fill. On the 4 x 4 image with a bright
2 x 2 block, the fill of the dark ring from seed x = 0, y = 2 touches the
left and top border; it does not reach pixel (1,1) and reaches pixel (3,3),
yet afterwards the mask byte of (1,1) is 255 and that of (3,3) is 0. -/
theorem floodPickContour_misses_filled_pixel :
    (∃ f, floodFillMask (labImage exampleEnv (freshModel wideDotImage []))
        (Mat.fill 5 6 0) 1 1 0 0 = .ok f ∧
      f.area = 1 ∧ f.rect = ⟨1, 1, 1, 1⟩ ∧ f.mask.px 2 2 = 1) ∧
    maskByte (floodPickContour exampleEnv (freshModel wideDotImage []) 1 1 0
      "train.contours.green") "train.contours.green" 1 1 = some 0 ∧
    (∃ f, floodFillMask (labImage exampleEnv (freshModel blockImage []))
        (Mat.fill 6 6 0) 0 2 0 0 = .ok f ∧
      f.area = 12 ∧ f.rect = ⟨0, 0, 4, 4⟩ ∧ f.mask.px 2 2 = 0 ∧ f.mask.px 4 4 = 1) ∧
    maskByte (floodPickContour exampleEnv (freshModel blockImage []) 0 2 0
      "train.contours.green") "train.contours.green" 1 1 = some 255 ∧
    maskByte (floodPickContour exampleEnv (freshModel blockImage []) 0 2 0
      "train.contours.green") "train.contours.green" 3 3 = some 0 := by
  refine ⟨⟨_, rfl, ?_, ?_, ?_⟩, ?_, ⟨_, rfl, ?_, ?_, ?_, ?_⟩, ?_, ?_⟩ <;> decide!

theorem growOnce_sound (rows cols : Nat) (ok : Nat → Nat → Bool) (seed : Nat × Nat)
    (cur : List (Nat × Nat)) (h : ∀ q ∈ cur, q = seed ∨ ok q.1 q.2 = true) :
    ∀ q ∈ growOnce rows cols ok cur, q = seed ∨ ok q.1 q.2 = true := by
  intro q hq
  simp only [growOnce, List.mem_filter, Bool.or_eq_true, Bool.and_eq_true] at hq
  rcases hq.2 with h1 | h1
  · exact h q (by simpa using h1)
  · exact Or.inr h1.1

/-- Every pixel of a filled region is the seed or an admissible pixel. -/
theorem floodRegion_sound (rows cols : Nat) (ok : Nat → Nat → Bool) (seed q : Nat × Nat)
    (h : q ∈ floodRegion rows cols ok seed) : q = seed ∨ ok q.1 q.2 = true := by
  have key : ∀ (n : Nat) (cur : List (Nat × Nat)),
      (∀ q ∈ cur, q = seed ∨ ok q.1 q.2 = true) →
      ∀ q ∈ Nat.iterate (growOnce rows cols ok) n cur, q = seed ∨ ok q.1 q.2 = true := by
    intro n
    induction n with
    | zero => intro cur hc; simpa using hc
    | succ n ih =>
      intro cur hc
      simp only [Function.iterate_succ, Function.comp]
      exact ih _ (growOnce_sound rows cols ok seed cur hc)
  exact key _ [seed] (by simp) q h

theorem unpickLoop_keeps_mark (E : Env) (L : String) (hits : List PolyItem) :
    ∀ s : SnapshotModel,
      (∃ m, s.m_matrices.value L = some (.u8 m) ∧ m.px 1 1 = 255 ∧ m.px 2 2 = 0) →
      ∀ s2, unpickLoop E 2 2 s hits = .ok s2 →
        ∃ m, s2.m_matrices.value L = some (.u8 m) ∧ m.px 1 1 = 255 ∧ m.px 2 2 = 0 := by
  induction hits with
  | nil =>
    intro s h s2 h2
    simp only [unpickLoop, Except.ok.injEq] at h2
    exact h2 ▸ h
  | cons q rest ih =>
    intro s h s2 h2
    obtain ⟨m, hm, h11, h22⟩ := h
    simp only [unpickLoop] at h2
    cases hf : floodFillSimple (getMatrix E s q.layer).2.asU8 2 2 0 with
    | error e => simp [hf] at h2
    | ok mask =>
      simp only [hf] at h2
      refine ih _ ?_ s2 h2
      have hkeep := getMatrix_value_of_some E s q.layer L (.u8 m) hm
      by_cases hL : q.layer = L
      · have hget : getMatrix E s q.layer = (s, .u8 m) := getMatrix_hit E s q.layer _ (hL ▸ hm)
        rw [hget] at hf
        simp only [floodFillSimple, CvMat.asU8] at hf
        split_ifs at hf
        simp only [Except.ok.injEq] at hf
        have hto : (2 : Int).toNat = 2 := rfl
        simp only [hto] at hf
        have hnot : ¬ ((1, 1) : Nat × Nat) ∈ floodRegion m.rows m.cols
            (fun r c => decide (m.px r c = m.px 2 2)) (2, 2) := by
          intro hin
          rcases floodRegion_sound _ _ _ _ _ hin with h3 | h3
          · exact absurd (congrArg Prod.fst h3) (by decide)
          · simp [h11, h22] at h3
        refine ⟨mask, ?_, ?_, ?_⟩
        · simp [setMatrix, hL, QMap.value_insert_self]
        · rw [← hf]
          simp only []
          rw [if_neg (fun hc => hnot (List.mem_of_elem_eq_true hc))]
          exact h11
        · rw [← hf]
          simp only []
          split_ifs
          · rfl
          · exact h22
      · refine ⟨m, ?_, h11, h22⟩
        simp [setMatrix, QMap.value_insert_of_ne _ _ _ _ (Ne.symm hL), hkeep]

/-- C3 (code defect). On the 4 x 4 image with a bright 2 x 2 block, a blank
green training mask and an empty scene, `floodPickContour` from the block
pixel x = 2, y = 2 with tolerance 0 succeeds and sets the mask byte of pixel
(1,1) to 255 (it was 0). `unpick` at the same seed leaves that byte at 255,
and it does so whatever polygons are in the scene and whatever the hit test
of the scene answers: the byte of the seed pixel itself was never set, so the
erasing fill starts on a zero pixel and changes nothing. -/
theorem unpick_after_pick_not_restored :
    ∃ s1, floodPickContour exampleEnv blockBlankModel 2 2 0 "train.contours.green" = .ok s1 ∧
      maskByte (.ok blockBlankModel) "train.contours.green" 1 1 = some 0 ∧
      maskByte (.ok s1) "train.contours.green" 1 1 = some 255 ∧
      maskByte (.ok s1) "train.contours.green" 2 2 = some 0 ∧
      maskByte (unpick exampleEnv s1 2 2) "train.contours.green" 1 1 = some 255 ∧
      ∀ (polys : List PolyItem) (hitTest : Polygon → Int → Int → Bool),
        maskByte (unpick { exampleEnv with shapeContainsPoint := hitTest }
          { s1 with polys := polys } 2 2) "train.contours.green" 1 1 ≠ some 0 := by
  refine ⟨_, by with_unfolding_all rfl, by decide!, by decide!, by decide!, by decide!, ?_⟩
  intro polys hitTest
  cases hu : unpick { exampleEnv with shapeContainsPoint := hitTest } _ 2 2 with
  | error e => simp [maskByte]
  | ok s2 =>
    obtain ⟨m, hm, h11, _⟩ := unpickLoop_keeps_mark _ "train.contours.green" _ _
      ⟨_, by with_unfolding_all rfl, by decide!, by decide!⟩ s2 hu
    simp [maskByte, maskOf, hm, CvMat.asU8, h11]

/-! ## Confidence masks -/

theorem cvRound_pos_iff (v : ℚ) : 1 ≤ cvRound v ↔ 1 / 2 < v := by
  have h1 : ((⌊v⌋ : Int) : ℚ) ≤ v := Int.floor_le v
  have h2 : v < ((⌊v⌋ : Int) : ℚ) + 1 := Int.lt_floor_add_one v
  unfold cvRound
  simp only []
  constructor
  · intro h
    by_contra hv
    have hv2 : v ≤ 1 / 2 := not_lt.mp hv
    have hf : ((⌊v⌋ : Int) : ℚ) < 1 := by linarith
    have hf2 : (⌊v⌋ : Int) < 1 := by exact_mod_cast hf
    split_ifs at h with c1 c2 c3
    · omega
    · have : ((⌊v⌋ : Int) : ℚ) < 0 := by linarith
      have : (⌊v⌋ : Int) < 0 := by exact_mod_cast this
      omega
    · omega
    · omega
  · intro hv
    have hf : (0 : ℚ) < ((⌊v⌋ : Int) : ℚ) + 1 := by linarith
    have hf2 : (0 : Int) < ⌊v⌋ + 1 := by exact_mod_cast hf
    split_ifs with c1 c2 c3
    · by_contra hc
      have h0 : (⌊v⌋ : Int) = 0 := by omega
      rw [h0] at c1
      simp at c1
      linarith
    · omega
    · by_contra hc
      have h0 : (⌊v⌋ : Int) = 0 := by omega
      rw [h0] at c1 c2
      simp at c1 c2
      have : v = 1 / 2 := le_antisymm (by linarith) (by linarith)
      linarith
    · omega

theorem saturate_u8_ne_zero_iff (n : Int) : saturate_u8 n ≠ 0 ↔ 1 ≤ n := by
  unfold saturate_u8
  split_ifs with c1 c2
  · simp; omega
  · simp; omega
  · constructor
    · intro h
      by_contra hc
      have : n = 0 := by omega
      simp [this] at h
    · intro h
      have : 0 < n.toNat := by omega
      omega

/-- A byte of `thresholdedDiff` is non-zero exactly when the rescaled,
truncated distance exceeds one half. -/
theorem thresholdedByte_ne_zero_iff (thresh d : ℚ) (h0 : thresh ≠ 0) :
    thresholdedByte thresh d ≠ 0 ↔ 1 / 2 < thresholdTrunc thresh d * (-255 / thresh) + 255 := by
  unfold thresholdedByte convertToU8
  rw [if_neg h0, saturate_u8_ne_zero_iff, cvRound_pos_iff]

theorem thresholdedByte_mono (T T2 d : ℚ) (hT : 0 < T) (hTT : T < T2) (hd : 0 ≤ d)
    (h : thresholdedByte T d ≠ 0) : thresholdedByte T2 d ≠ 0 := by
  have hT2 : 0 < T2 := lt_trans hT hTT
  rw [thresholdedByte_ne_zero_iff _ _ (ne_of_gt hT)] at h
  rw [thresholdedByte_ne_zero_iff _ _ (ne_of_gt hT2)]
  unfold thresholdTrunc at h ⊢
  have e1 : ∀ (a b : ℚ), 0 < b → a * (-255 / b) + 255 = 255 * (1 - a / b) := by
    intro a b hb
    field_simp
    ring
  rw [e1 _ _ hT] at h
  rw [e1 _ _ hT2]
  have key : (if T2 < d then T2 else d) / T2 ≤ (if T < d then T else d) / T := by
    split_ifs with c1 c2 c2
    · rw [div_self (ne_of_gt hT2), div_self (ne_of_gt hT)]
    · exact absurd (lt_trans hTT c1) c2
    · rw [div_self (ne_of_gt hT)]
      rw [div_le_one hT2]
      exact not_lt.mp c1
    · rw [div_le_div_iff₀ hT2 hT]
      have : d * T ≤ d * T2 := mul_le_mul_of_nonneg_left (le_of_lt hTT) hd
      linarith
  linarith

theorem rawCardMask_px_ne_zero_iff (G : Nat) (diff : Mat Nat) (indices : Mat Int)
    (color r c : Nat) :
    (rawCardMask G diff indices color).px r c ≠ 0 ↔
      diff.dataAt (r * indices.cols + c) ≠ 0 ∧
        Int.tdiv (indices.dataAt (r * indices.cols + c)) G = color := by
  simp only [rawCardMask]
  split_ifs with c1
  · simp only [ne_eq, one_ne_zero, not_false_eq_true, true_iff]
    exact c1
  · simp only [ne_eq, not_true_eq_false, false_iff]
    exact c1

theorem thresholdedDiff_dataAt (thresh : ℚ) (dists : Mat ℚ) (i : Nat) :
    (thresholdedDiff thresh dists).dataAt i = thresholdedByte thresh (dists.dataAt i) := rfl

/-- C5. For a distance raster without negative entries and thresholds
`0 < T < T2`, every pixel whose byte of `thresholdedDiff` is non-zero at `T`
has a non-zero byte at `T2`, and every pixel the loop of `computeColorDiff`
writes into a colour mask at `T` (before the opening) is written into the
same mask at `T2`. -/
theorem computeColorDiff_confident_monotone (dists : Mat ℚ) (T T2 : ℚ)
    (hT : 0 < T) (hTT : T < T2) (hd : ∀ i j, 0 ≤ dists.px i j) :
    (∀ i j, (thresholdedDiff T dists).px i j ≠ 0 → (thresholdedDiff T2 dists).px i j ≠ 0) ∧
    ∀ (G : Nat) (indices : Mat Int) (color r c : Nat),
      (rawCardMask G (thresholdedDiff T dists) indices color).px r c ≠ 0 →
      (rawCardMask G (thresholdedDiff T2 dists) indices color).px r c ≠ 0 := by
  constructor
  · intro i j h
    exact thresholdedByte_mono T T2 _ hT hTT (hd i j) h
  · intro G indices color r c h
    rw [rawCardMask_px_ne_zero_iff, thresholdedDiff_dataAt] at h ⊢
    exact ⟨thresholdedByte_mono T T2 _ hT hTT (hd _ _) h.1, h.2⟩

/-- Witness for C5: the slider values 1 and 2 give the thresholds 3 and 12;
on the raster with distances 0 and 5 the pixel of distance 5 is not confident
at 3 and confident at 12, the pixel of distance 0 is confident at both. -/
theorem computeColorDiff_confident_monotone_witness :
    (0 < colorDiffThresh 1 ∧ colorDiffThresh 1 < colorDiffThresh 2 ∧
      (∀ i j, 0 ≤ exampleDists.px i j)) ∧
    (thresholdedByte (colorDiffThresh 1) 0 = 255 ∧
      thresholdedByte (colorDiffThresh 1) 5 = 0 ∧
      thresholdedByte (colorDiffThresh 2) 5 = 149) ∧
    ((∀ i j, (thresholdedDiff (colorDiffThresh 1) exampleDists).px i j ≠ 0 →
        (thresholdedDiff (colorDiffThresh 2) exampleDists).px i j ≠ 0) ∧
      ∀ (G : Nat) (indices : Mat Int) (color r c : Nat),
        (rawCardMask G (thresholdedDiff (colorDiffThresh 1) exampleDists) indices color).px r c
          ≠ 0 →
        (rawCardMask G (thresholdedDiff (colorDiffThresh 2) exampleDists) indices color).px r c
          ≠ 0) := by
  have h1 : 0 < colorDiffThresh 1 := by norm_num [colorDiffThresh]
  have h2 : colorDiffThresh 1 < colorDiffThresh 2 := by norm_num [colorDiffThresh]
  have h3 : ∀ i j, 0 ≤ exampleDists.px i j := by
    intro i j
    simp only [exampleDists]
    split_ifs <;> norm_num
  exact ⟨⟨h1, h2, h3⟩, ⟨by decide!, by decide!, by decide!⟩,
    computeColorDiff_confident_monotone exampleDists _ _ h1 h2 h3⟩

/-! ## Contour commits -/

theorem countCardsLoop_eq_filter (E : Env) (minSize : Int) (contours : List Contour) :
    countCardsLoop E minSize contours =
      (contours.filter fun c => decide ((minSize : ℚ) ≤ contourArea c)).map
        fun c => E.toQPolygon (E.approxPolyDP c 1) := by
  induction contours with
  | nil => rfl
  | cons c rest ih =>
    unfold countCardsLoop
    by_cases h : (minSize : ℚ) > contourArea c
    · have h2 : ¬ ((minSize : ℚ) ≤ contourArea c) := not_le.mpr h
      simp [h, h2, ih]
    · have h2 : (minSize : ℚ) ≤ contourArea c := not_lt.mp h
      simp [h, h2, ih]

theorem layerUnder_self (name : String) : layerUnder name name = true := by
  simp [layerUnder]

theorem polygonsOf_countCardsLayer (E : Env) (minSize : Int) (s : SnapshotModel)
    (color : String) :
    polygonsOf (countCardsLayer E minSize s color) ("count.contours." ++ color) =
      countCardsLoop E minSize
        (E.findContours (getMatrix E s ("count.contours." ++ color)).2.asU8) := by
  simp only [polygonsOf, countCardsLayer, clearLayer, List.filter_append, List.map_append]
  have h1 : ∀ l : List PolyItem,
      (List.filter (fun p => decide (p.layer = "count.contours." ++ color))
        (List.filter (fun p => !layerUnder ("count.contours." ++ color) p.layer) l)) = [] := by
    intro l
    rw [List.filter_filter]
    apply List.filter_eq_nil_iff.mpr
    intro a _
    by_cases ha : a.layer = "count.contours." ++ color
    · simp [ha, layerUnder_self]
    · simp [ha]
  have h2 : ∀ l : List Polygon,
      (List.filter (fun p => decide (p.layer = "count.contours." ++ color))
        (l.map fun polygon => (⟨"count.contours." ++ color, polygon⟩ : PolyItem))).map
          PolyItem.polygon = l := by
    intro l
    induction l with
    | nil => rfl
    | cons a t ih => simp [List.filter, ih]
  rw [h1, h2]
  rfl

theorem addContour_polys (E : Env) (s : SnapshotModel) (contour : Polygon) (name : String)
    (paintToMask : Bool) :
    (addContour E s contour name paintToMask).polys = s.polys ++ [⟨name, contour⟩] := by
  unfold addContour
  cases paintToMask with
  | false => simp
  | true => simp [setMatrix, getMatrix_polys]

theorem foldl_addContour_polys (E : Env) (name : String) (paint : Bool)
    (polygons : List Polygon) :
    ∀ s : SnapshotModel,
      (polygons.foldl (fun st polygon => addContour E st polygon name paint) s).polys =
        s.polys ++ polygons.map fun polygon => (⟨name, polygon⟩ : PolyItem) := by
  induction polygons with
  | nil => intro s; simp
  | cons a t ih =>
    intro s
    simp only [List.foldl_cons, List.map_cons]
    rw [ih, addContour_polys]
    simp

theorem countCardsLayer_read_other (E : Env) (minSize : Int) (s : SnapshotModel)
    (c tag : String) (h0 : tag ≠ "count.contours." ++ c) (h1 : tag ≠ "lab")
    (h2 : strContains tag ".contours." = true) (h3 : tag ≠ "input") (h4 : tag ≠ "paletteLab") :
    (getMatrix E (countCardsLayer E minSize s c) tag).2 = (getMatrix E s tag).2 := by
  rw [getMatrix_contours_result E _ tag h1 h2, getMatrix_contours_result E s tag h1 h2]
  have hm : (countCardsLayer E minSize s c).m_matrices =
      (getMatrix E s ("count.contours." ++ c)).1.m_matrices := rfl
  have hi : (countCardsLayer E minSize s c).input = s.input := by
    simp [countCardsLayer, clearLayer, getMatrix_input]
  rw [hm, hi, getMatrix_value_of_ne E s _ tag h0 h3 h4]

theorem polygonsOf_countCardsLayer_other (E : Env) (minSize : Int) (s : SnapshotModel)
    (c tag : String) (h0 : tag ≠ "count.contours." ++ c)
    (h1 : layerUnder ("count.contours." ++ c) tag = false) :
    polygonsOf (countCardsLayer E minSize s c) tag = polygonsOf s tag := by
  simp only [polygonsOf, countCardsLayer, clearLayer, List.filter_append, List.map_append,
    getMatrix_polys]
  have e1 : ∀ l : List Polygon,
      List.filter (fun p => decide (p.layer = tag))
        (l.map fun polygon => (⟨"count.contours." ++ c, polygon⟩ : PolyItem)) = [] := by
    intro l
    apply List.filter_eq_nil_iff.mpr
    intro a ha
    simp only [List.mem_map] at ha
    obtain ⟨_, _, rfl⟩ := ha
    simp [Ne.symm h0]
  rw [e1, List.filter_filter]
  simp only [List.map_nil, List.append_nil]
  congr 1
  apply List.filter_congr
  intro a _
  by_cases ha : a.layer = tag
  · simp [ha, h1]
  · simp [ha]

theorem wrapInt32_of_small (v : Int) (hlo : -2147483648 ≤ v) (hhi : v < 2147483648) :
    wrapInt32 v = v := by
  unfold wrapInt32
  omega

theorem countCardsMinSize_of_small (sizeFilter : Int) (hlo : -46340 ≤ sizeFilter)
    (hhi : sizeFilter ≤ 46340) : countCardsMinSize sizeFilter = sizeFilter * sizeFilter := by
  unfold countCardsMinSize
  rw [wrapInt32_of_small sizeFilter (by omega) (by omega)]
  apply wrapInt32_of_small
  · nlinarith [mul_self_nonneg sizeFilter]
  · nlinarith

/-- C6 (amended). After `countCards` the polygons of each colour layer are
those of the contours traced in the mask of the colour whose area is at
least `minSize`, in order: a traced contour is committed exactly when its
area reaches `minSize` and dropped exactly when it is below. `minSize` is the
"sizeFilter" value multiplied by itself in 32 bit arithmetic; it is the
square of the value whenever the value lies between -46340 and 46340.
`detectContours` (run by pick and on load) has no area filter: on a cached
mask with a valid region of interest it appends one polygon to the layer for
every traced contour. -/
theorem contour_area_filter :
    (∀ (E : Env) (s : SnapshotModel) (sizeFilter : Int) (color : String),
      color ∈ s_colorNames →
      polygonsOf (countCards E s sizeFilter) ("count.contours." ++ color) =
        ((E.findContours (getMatrix E s ("count.contours." ++ color)).2.asU8).filter
          fun c => decide (((countCardsMinSize sizeFilter : Int) : ℚ) ≤ contourArea c)).map
            fun c => E.toQPolygon (E.approxPolyDP c 1)) ∧
    (∀ sizeFilter : Int, -46340 ≤ sizeFilter → sizeFilter ≤ 46340 →
      countCardsMinSize sizeFilter = sizeFilter * sizeFilter) ∧
    (∀ (E : Env) (s : SnapshotModel) (name : String) (m : CvMat) (maskROI : Rect)
        (simple : Int),
      s.m_matrices.value name = some m →
      (maskROI.width = 0 ∨ roiInside m.asU8 maskROI = true) →
      ∃ s2, detectContours E s name true maskROI simple =
          .ok (s2, contourPolygons E (tracedContours E m.asU8 maskROI) simple) ∧
        polygonsOf s2 name =
          polygonsOf s name ++ contourPolygons E (tracedContours E m.asU8 maskROI) simple ∧
        (contourPolygons E (tracedContours E m.asU8 maskROI) simple).length =
          (E.findContours (if maskROI.width ≠ 0 then subMat m.asU8 maskROI else m.asU8)).length)
    := by
  refine ⟨?_, ?_, ?_⟩
  · intro E s sizeFilter color hmem
    rw [← countCardsLoop_eq_filter]
    simp only [s_colorNames, List.mem_cons, List.mem_singleton, List.not_mem_nil,
      or_false] at hmem
    simp only [countCards, s_colorNames, List.foldl]
    rcases hmem with rfl | rfl | rfl
    · rw [polygonsOf_countCardsLayer_other E _ _ "yellow" _ (by decide) (by decide),
        polygonsOf_countCardsLayer_other E _ _ "pink" _ (by decide) (by decide),
        polygonsOf_countCardsLayer]
    · rw [polygonsOf_countCardsLayer_other E _ _ "yellow" _ (by decide) (by decide),
        polygonsOf_countCardsLayer,
        countCardsLayer_read_other E _ _ "green" _ (by decide) (by decide) (by decide)
          (by decide) (by decide)]
    · rw [polygonsOf_countCardsLayer,
        countCardsLayer_read_other E _ _ "pink" _ (by decide) (by decide) (by decide)
          (by decide) (by decide),
        countCardsLayer_read_other E _ _ "green" _ (by decide) (by decide) (by decide)
          (by decide) (by decide)]
  · intro sizeFilter hlo hhi
    exact countCardsMinSize_of_small sizeFilter hlo hhi
  · intro E s name m maskROI simple hm hroi
    have hc : s.m_matrices.contains name = true := by
      rw [QMap.contains_eq_isSome, hm]; rfl
    have hr : ¬ (maskROI.width ≠ 0 ∧ (!roiInside m.asU8 maskROI) = true) := by
      rintro ⟨h1, h2⟩
      rcases hroi with h3 | h3
      · exact h1 h3
      · simp [h3] at h2
    refine ⟨(contourPolygons E (tracedContours E m.asU8 maskROI) simple).foldl
      (fun st polygon => addContour E st polygon name E.dflt_paintToMask) s, ?_, ?_, ?_⟩
    · unfold detectContours
      simp only [hc, getMatrix_hit E s name m hm, hr]
      simp
    · simp only [polygonsOf, foldl_addContour_polys, List.filter_append, List.map_append]
      congr 1
      generalize contourPolygons E (tracedContours E m.asU8 maskROI) simple = l
      induction l with
      | nil => rfl
      | cons a t ih => simp [List.filter, ih]
    · simp [contourPolygons, tracedContours]

/-- Witness for C6: with "sizeFilter" 2 `minSize` is 4, the square of area 4
is committed and the single pixel contour of area 0 is dropped by
`countCards`, while `detectContours` commits both. With "sizeFilter" 65536
the 32 bit product is 0 and `countCards` commits both contours. -/
theorem contour_area_filter_witness :
    polygonsOf (countCards tracingEnv countModel 2) "count.contours.green" =
      [[(0, 0), (2, 0), (2, 2), (0, 2)]] ∧
    countCardsMinSize 2 = 4 ∧
    countCardsMinSize 65536 = 0 ∧
    polygonsOf (countCards tracingEnv countModel 65536) "count.contours.green" =
      [[(1, 1)], [(0, 0), (2, 0), (2, 2), (0, 2)]] ∧
    ∃ s2, detectContours tracingEnv countModel "count.contours.green" true ⟨0, 0, 0, 0⟩ 1 =
        .ok (s2, [[(1, 1)], [(0, 0), (2, 0), (2, 2), (0, 2)]]) ∧
      polygonsOf s2 "count.contours.green" =
        [[(1, 1)], [(0, 0), (2, 0), (2, 2), (0, 2)]] := by
  refine ⟨?_, ?_, by decide, ?_, ?_⟩
  · exact (contour_area_filter.1 tracingEnv countModel 2 "green" (by decide)).trans
      (by decide!)
  · exact contour_area_filter.2.1 2 (by decide) (by decide)
  · exact (contour_area_filter.1 tracingEnv countModel 65536 "green" (by decide)).trans
      (by decide!)
  · obtain ⟨s2, h1, h2, _⟩ := contour_area_filter.2.2 tracingEnv countModel
      "count.contours.green" (.u8 (Mat.fill 3 3 0)) ⟨0, 0, 0, 0⟩ 1 rfl (Or.inl rfl)
    refine ⟨s2, h1.trans ?_, h2.trans ?_⟩
    · have : contourPolygons tracingEnv
          (tracedContours tracingEnv (CvMat.u8 (Mat.fill 3 3 0)).asU8 ⟨0, 0, 0, 0⟩) 1 =
          [[(1, 1)], [(0, 0), (2, 0), (2, 2), (0, 2)]] := by decide!
      rw [this]
    · decide!

/-- Counterexample to C6 as stated: with "sizeFilter" 3 the traced square of
area 4 (at least 3) is dropped by `countCards`, which compares with 9; and
`detectContours` commits the traced single pixel contour of area 0. -/
theorem area_filter_not_the_setting :
    contourArea squareContour = 4 ∧ contourArea pointContour = 0 ∧
    tracingEnv.findContours (Mat.fill 3 3 0) = [pointContour, squareContour] ∧
    polygonsOf (countCards tracingEnv countModel 3) "count.contours.green" = [] ∧
    ∃ s2, detectContours tracingEnv countModel "count.contours.green" true ⟨0, 0, 0, 0⟩ 1 =
        .ok (s2, [[(1, 1)], [(0, 0), (2, 0), (2, 2), (0, 2)]]) ∧
      polygonsOf s2 "count.contours.green" =
        [[(1, 1)], [(0, 0), (2, 0), (2, 2), (0, 2)]] := by
  refine ⟨by decide!, by decide!, rfl, by decide!, _, rfl, by decide!⟩

/-! ## Merging -/

theorem collectByLayer_value (L : String) (hits : List PolyItem) :
    ∀ acc : QMap (List PolyItem),
      ((collectByLayer hits acc).value L).getD [] =
        (acc.value L).getD [] ++ hits.filter fun q => decide (q.layer = L) := by
  induction hits with
  | nil => intro acc; simp [collectByLayer]
  | cons q rest ih =>
    intro acc
    simp only [collectByLayer]
    rw [ih]
    by_cases hq : q.layer = L
    · subst hq
      simp [QMap.value_insert_self, List.filter]
    · simp [QMap.value_insert_of_ne _ _ _ _ (Ne.symm hq), List.filter, hq]

theorem collectByLayer_group (hits : List PolyItem) (L : String) :
    ((collectByLayer hits []).value L).getD [] = hits.filter fun q => decide (q.layer = L) := by
  rw [collectByLayer_value]
  simp [QMap.value]

theorem filter_erase_of_false (f : PolyItem → Bool) (q : PolyItem) (hq : f q = false) :
    ∀ l : List PolyItem, (l.erase q).filter f = l.filter f := by
  intro l
  induction l with
  | nil => rfl
  | cons a t ih =>
    by_cases ha : a = q
    · subst ha
      simp [List.filter, hq]
    · have hb : (a == q) = false := by simpa using ha
      rw [List.erase_cons, hb]
      simp only [Bool.false_eq_true, if_false, List.filter_cons, ih]

theorem filter_foldl_erase (f : PolyItem → Bool) (group : List PolyItem)
    (hg : ∀ q ∈ group, f q = false) :
    ∀ l : List PolyItem, (group.foldl (fun l q => l.erase q) l).filter f = l.filter f := by
  induction group with
  | nil => intro l; rfl
  | cons q rest ih =>
    intro l
    simp only [List.foldl_cons]
    rw [ih (fun a ha => hg a (List.mem_cons_of_mem _ ha)),
      filter_erase_of_false f q (hg q (List.mem_cons_self _ _))]

theorem addContour_paint_value_of_ne (E : Env) (s : SnapshotModel) (contour : Polygon)
    (name L : String) (h : L ≠ name) (h1 : L ≠ "input") (h2 : L ≠ "paletteLab") :
    (addContour E s contour name true).m_matrices.value L = s.m_matrices.value L := by
  simp only [addContour, if_true, setMatrix]
  rw [QMap.value_insert_of_ne _ _ _ _ h, getMatrix_value_of_ne E _ name L h h1 h2]

theorem mergeLoop_frame (E : Env) (collection : QMap (List PolyItem)) (L : String)
    (hgroup : ∀ name, ∀ q ∈ (collection.value name).getD [], q.layer = name)
    (hL : ((collection.value L).getD []).length < 2) (ks : List String) :
    ∀ s : SnapshotModel,
      ((mergeLoop E collection s ks).polys.filter fun p => decide (p.layer = L)) =
          (s.polys.filter fun p => decide (p.layer = L)) ∧
        (L ≠ "input" → L ≠ "paletteLab" →
          (mergeLoop E collection s ks).m_matrices.value L = s.m_matrices.value L) := by
  induction ks with
  | nil => intro s; exact ⟨rfl, fun _ _ => rfl⟩
  | cons name rest ih =>
    intro s
    unfold mergeLoop
    by_cases hlen : ((collection.value name).getD []).length < 2
    · simp only [hlen, if_true]
      exact ih s
    · simp only [hlen, if_false]
      have hne : L ≠ name := by
        intro h
        rw [h] at hL
        exact hlen hL
      obtain ⟨ih1, ih2⟩ := ih (addContour E
        { s with polys := ((collection.value name).getD []).foldl (fun l q => l.erase q) s.polys }
        (E.convexHull (((collection.value name).getD []).foldl
          (fun sp q => E.united sp q.polygon) [])) name true)
      constructor
      · rw [ih1, addContour_polys]
        simp only [List.filter_append]
        rw [filter_foldl_erase]
        · simp [List.filter, Ne.symm hne]
        · intro q hq
          have := hgroup name q hq
          simp [this, Ne.symm hne]
      · intro h1 h2
        rw [ih2 h1 h2, addContour_paint_value_of_ne E _ _ name L hne h1 h2]

theorem mergeLoop_noop (E : Env) (collection : QMap (List PolyItem)) (ks : List String)
    (h : ∀ name ∈ ks, ((collection.value name).getD []).length < 2) :
    ∀ s : SnapshotModel, mergeLoop E collection s ks = s := by
  induction ks with
  | nil => intro s; rfl
  | cons name rest ih =>
    intro s
    unfold mergeLoop
    simp only [h name (List.mem_cons_self _ _), if_true]
    exact ih (fun n hn => h n (List.mem_cons_of_mem _ hn)) s

/-- C7. For every rectangle and every layer with fewer than two polygons
inside the rectangle, `mergeContours` leaves the polygon items of the layer
as they were and, for a region tag (one containing ".contours."), leaves the
cache entry of its mask as it was. When the rectangle contains exactly one
polygon, `mergeContours` changes nothing at all. -/
theorem mergeContours_frame (E : Env) (s : SnapshotModel) (rect : ℚ × ℚ × ℚ × ℚ) (L : String)
    (h : ((s.polys.filter fun p => E.shapeInside p.polygon rect).filter
      fun p => decide (p.layer = L)).length < 2) :
    ((mergeContours E s rect).polys.filter fun p => decide (p.layer = L)) =
        (s.polys.filter fun p => decide (p.layer = L)) ∧
      (strContains L ".contours." = true →
        (mergeContours E s rect).m_matrices.value L = s.m_matrices.value L) ∧
      ((s.polys.filter fun p => E.shapeInside p.polygon rect).length = 1 →
        mergeContours E s rect = s) := by
  have hgroup : ∀ name, ∀ q ∈ ((collectByLayer
      (s.polys.filter fun p => E.shapeInside p.polygon rect) []).value name).getD [],
      q.layer = name := by
    intro name q hq
    rw [collectByLayer_group] at hq
    simpa using (List.mem_filter.mp hq).2
  have hL : (((collectByLayer
      (s.polys.filter fun p => E.shapeInside p.polygon rect) []).value L).getD []).length < 2 := by
    rw [collectByLayer_group]
    exact h
  obtain ⟨f1, f2⟩ := mergeLoop_frame E _ L hgroup hL
    (collectByLayer (s.polys.filter fun p => E.shapeInside p.polygon rect) []).keys s
  refine ⟨f1, ?_, ?_⟩
  · intro hc
    apply f2
    · intro hk; rw [hk] at hc; exact absurd hc (by decide)
    · intro hk; rw [hk] at hc; exact absurd hc (by decide)
  · intro hone
    unfold mergeContours
    apply mergeLoop_noop
    intro name _
    rw [collectByLayer_group]
    calc ((s.polys.filter fun p => E.shapeInside p.polygon rect).filter
          fun q => decide (q.layer = name)).length
        ≤ (s.polys.filter fun p => E.shapeInside p.polygon rect).length :=
          List.length_filter_le _ _
      _ = 1 := hone
      _ < 2 := by decide

/-- Witness for C7: with two green polygons and one pink polygon inside the
rectangle, the green pair is merged into one polygon while the pink layer
keeps its polygon and its mask entry. -/
theorem mergeContours_frame_witness :
    ((mergeModel.polys.filter fun p => insideEnv.shapeInside p.polygon (0, 0, 3, 3)).filter
      fun p => decide (p.layer = "train.contours.pink")).length < 2 ∧
    (mergeContours insideEnv mergeModel (0, 0, 3, 3)).polys.map PolyItem.layer =
      ["train.contours.pink", "train.contours.green"] ∧
    (((mergeContours insideEnv mergeModel (0, 0, 3, 3)).polys.filter
        fun p => decide (p.layer = "train.contours.pink")) =
      (mergeModel.polys.filter fun p => decide (p.layer = "train.contours.pink")) ∧
    (strContains "train.contours.pink" ".contours." = true →
      (mergeContours insideEnv mergeModel (0, 0, 3, 3)).m_matrices.value "train.contours.pink" =
        mergeModel.m_matrices.value "train.contours.pink") ∧
    ((mergeModel.polys.filter fun p => insideEnv.shapeInside p.polygon (0, 0, 3, 3)).length = 1 →
      mergeContours insideEnv mergeModel (0, 0, 3, 3) = mergeModel)) :=
  ⟨by decide, by decide!,
    mergeContours_frame insideEnv mergeModel (0, 0, 3, 3) "train.contours.pink" (by decide)⟩

/-! ## Mask dimensions -/

theorem CvMat.asU8_rows (c : CvMat) : c.asU8.rows = c.rows := by
  cases c <;> rfl

theorem CvMat.asU8_cols (c : CvMat) : c.asU8.cols = c.cols := by
  cases c <;> rfl

theorem CvMat.asS32_rows (c : CvMat) : c.asS32.rows = c.rows := by
  cases c <;> rfl

theorem CvMat.asS32_cols (c : CvMat) : c.asS32.cols = c.cols := by
  cases c <;> rfl

theorem maskDimsOk_setMatrix (s : SnapshotModel) (tag : String) (m : CvMat)
    (h : maskDimsOk s)
    (hm : strContains tag ".contours." = true → m.rows = s.input.rows ∧ m.cols = s.input.cols) :
    maskDimsOk (setMatrix s tag m) := by
  intro k v hk hv
  by_cases e : k = tag
  · subst e
    simp only [setMatrix, QMap.value_insert_self, Option.some.injEq] at hv
    subst hv
    exact hm hk
  · simp only [setMatrix, QMap.value_insert_of_ne _ _ _ _ e] at hv
    exact h k v hk hv

theorem maskDimsOk_getMatrixLeaf (s : SnapshotModel) (tag : String) (h : maskDimsOk s) :
    maskDimsOk (getMatrixLeaf s tag).1 := by
  unfold getMatrixLeaf
  cases hv : s.m_matrices.value tag with
  | some m => exact h
  | none =>
    apply maskDimsOk_setMatrix s tag _ h
    intro hc
    simp [newMatrix, hc, CvMat.rows, CvMat.cols, Mat.fill]

/-- The cache lookup `getMatrix` keeps the mask dimension invariant. -/
theorem maskDimsOk_getMatrix (E : Env) (s : SnapshotModel) (tag : String) (h : maskDimsOk s) :
    maskDimsOk (getMatrix E s tag).1 := by
  unfold getMatrix
  cases hv : s.m_matrices.value tag with
  | some m => exact h
  | none =>
    simp only []
    split_ifs with h1 h2 h3
    · apply maskDimsOk_setMatrix _ tag _ (maskDimsOk_getMatrixLeaf s "input" h)
      intro hc
      rw [h1] at hc
      exact absurd hc (by decide)
    · exact maskDimsOk_getMatrixLeaf s tag h
    · apply maskDimsOk_setMatrix _ tag _ (maskDimsOk_getMatrixLeaf s "paletteLab" h)
      intro hc
      exact absurd hc h2
    · exact maskDimsOk_getMatrixLeaf s tag h

/-- An edit of a cached matrix in place (the header is kept) keeps the mask
dimension invariant. -/
theorem maskDimsOk_edit (E : Env) (s : SnapshotModel) (tag : String) (px : Nat → Nat → Nat)
    (h : maskDimsOk s) :
    maskDimsOk (setMatrix (getMatrix E s tag).1 tag
      (.u8 ⟨(getMatrix E s tag).2.asU8.rows, (getMatrix E s tag).2.asU8.cols, px⟩)) := by
  apply maskDimsOk_setMatrix _ tag _ (maskDimsOk_getMatrix E s tag h)
  intro hc
  have := maskDimsOk_getMatrix E s tag h tag _ hc (getMatrix_value_self E s tag)
  simpa [CvMat.rows, CvMat.cols, CvMat.asU8_rows, CvMat.asU8_cols] using this

theorem maskDimsOk_edit_of_dims (E : Env) (s : SnapshotModel) (tag : String) (m : Mat Nat)
    (h : maskDimsOk s) (hr : m.rows = (getMatrix E s tag).2.asU8.rows)
    (hc : m.cols = (getMatrix E s tag).2.asU8.cols) :
    maskDimsOk (setMatrix (getMatrix E s tag).1 tag (.u8 m)) := by
  have e : m = ⟨(getMatrix E s tag).2.asU8.rows, (getMatrix E s tag).2.asU8.cols, m.px⟩ := by
    cases m
    simp only [Mat.mk.injEq] at hr hc ⊢
    exact ⟨hr, hc, trivial⟩
  rw [e]
  exact maskDimsOk_edit E s tag _ h

theorem maskDimsOk_polys (s : SnapshotModel) (l : List PolyItem) (h : maskDimsOk s) :
    maskDimsOk { s with polys := l } := h

theorem maskDimsOk_addContour (E : Env) (s : SnapshotModel) (contour : Polygon)
    (name : String) (paint : Bool) (h : maskDimsOk s) :
    maskDimsOk (addContour E s contour name paint) := by
  unfold addContour
  cases paint with
  | false => exact h
  | true =>
    simp only [if_true]
    exact maskDimsOk_edit E _ name _ (maskDimsOk_polys s _ h)

theorem maskDimsOk_foldl_addContour (E : Env) (name : String) (paint : Bool)
    (polygons : List Polygon) :
    ∀ s : SnapshotModel, maskDimsOk s →
      maskDimsOk (polygons.foldl (fun st polygon => addContour E st polygon name paint) s) := by
  induction polygons with
  | nil => intro s h; exact h
  | cons a t ih =>
    intro s h
    exact ih _ (maskDimsOk_addContour E s a name paint h)

theorem maskDimsOk_detectContours (E : Env) (s s2 : SnapshotModel) (name : String)
    (addToScene : Bool) (maskROI : Rect) (simple : Int) (polygons : List Polygon)
    (h : maskDimsOk s)
    (hd : detectContours E s name addToScene maskROI simple = .ok (s2, polygons)) :
    maskDimsOk s2 := by
  unfold detectContours at hd
  by_cases c1 : (!s.m_matrices.contains name) = true
  · rw [if_pos c1] at hd
    simp only [Except.ok.injEq, Prod.mk.injEq] at hd
    exact hd.1 ▸ h
  · rw [if_neg c1] at hd
    simp only [] at hd
    by_cases c2 : maskROI.width ≠ 0 ∧ (!roiInside (getMatrix E s name).2.asU8 maskROI) = true
    · rw [if_pos c2] at hd
      exact absurd hd (by simp)
    · rw [if_neg c2] at hd
      cases addToScene with
      | true =>
        simp only [if_true, Except.ok.injEq, Prod.mk.injEq] at hd
        rw [← hd.1]
        exact maskDimsOk_foldl_addContour E name _ _ _ (maskDimsOk_getMatrix E s name h)
      | false =>
        simp only [Bool.false_eq_true, if_false, Except.ok.injEq, Prod.mk.injEq] at hd
        rw [← hd.1]
        exact maskDimsOk_getMatrix E s name h

theorem mergeMasks_dims (mask pickMask m : Mat Nat) (img_bounds bounds : Rect)
    (h : mergeMasks mask pickMask img_bounds bounds = .ok m) :
    m.rows = mask.rows ∧ m.cols = mask.cols := by
  unfold mergeMasks at h
  split_ifs at h
  simp only [Except.ok.injEq] at h
  rw [← h]
  exact ⟨rfl, rfl⟩

theorem floodFillSimple_dims (image m : Mat Nat) (x y : Int) (newVal : Nat)
    (h : floodFillSimple image x y newVal = .ok m) :
    m.rows = image.rows ∧ m.cols = image.cols := by
  unfold floodFillSimple at h
  split_ifs at h
  simp only [Except.ok.injEq] at h
  rw [← h]
  exact ⟨rfl, rfl⟩

/-- The method `floodPickContour` keeps the mask dimension invariant. -/
theorem maskDimsOk_floodPickContour (E : Env) (s s2 : SnapshotModel) (x y fuzz : Int)
    (layerName : String) (h : maskDimsOk s)
    (hp : floodPickContour E s x y fuzz layerName = .ok s2) : maskDimsOk s2 := by
  have h0 := maskDimsOk_getMatrix E s "lab" h
  unfold floodPickContour at hp
  simp only [] at hp
  cases hf : floodFillMask (getMatrix E s "lab").2.asF32C3
      (Mat.fill ((getMatrix E s "lab").2.asF32C3.rows + 2)
        ((getMatrix E s "lab").2.asF32C3.cols + 2) 0) x y fuzz fuzz with
  | error e => simp [hf] at hp
  | ok f =>
    simp only [hf] at hp
    by_cases ha : f.area < 1
    · rw [if_pos ha] at hp
      simp only [Except.ok.injEq] at hp
      rw [← hp]
      exact maskDimsOk_getMatrix E _ layerName h0
    · rw [if_neg ha] at hp
      cases hm : mergeMasks (getMatrix E (getMatrix E s "lab").1 layerName).2.asU8 f.mask
          (pickImgBounds f.rect) f.rect with
      | error e => simp [hm] at hp
      | ok merged =>
        simp only [hm] at hp
        obtain ⟨d1, d2⟩ := mergeMasks_dims _ _ _ _ _ hm
        have h2 := maskDimsOk_edit_of_dims E _ layerName merged h0 d1 d2
        generalize hs2 : setMatrix (getMatrix E (getMatrix E s "lab").1 layerName).1 layerName
          (CvMat.u8 merged) = sB at hp h2
        split at hp
        · exact absurd hp (by simp)
        · rename_i d hd
          simp only [Except.ok.injEq] at hp
          rw [← hp]
          exact maskDimsOk_detectContours E _ d.1 layerName true _ _ d.2
            (maskDimsOk_polys sB _ h2) hd

/-- The method `pick` keeps the mask dimension invariant. -/
theorem maskDimsOk_pick (E : Env) (s s2 : SnapshotModel) (fuzz x y : Int)
    (h : maskDimsOk s) (hp : pick E s fuzz x y = .ok s2) : maskDimsOk s2 := by
  unfold pick at hp
  by_cases c1 : (inputRect s).containsPoint x y = true
  · rw [if_pos c1] at hp
    cases hm : s.m_mode with
    | COUNT =>
      simp only [hm] at hp
      by_cases c2 : (!s.m_matrices.contains "indices") = true
      · rw [if_pos c2] at hp
        simp only [Except.ok.injEq] at hp
        rw [← hp]
        exact h
      · rw [if_neg c2] at hp
        by_cases c3 : Int.tdiv ((getMatrix E s "indices").2.asS32.px y.toNat x.toNat)
            E.COLOR_GRADATIONS < 0
        · rw [if_pos c3] at hp
          exact absurd hp (by simp)
        · rw [if_neg c3] at hp
          split at hp
          · exact absurd hp (by simp)
          · exact maskDimsOk_floodPickContour E _ s2 x y fuzz _
              (maskDimsOk_getMatrix E s "indices" h) hp
    | TRAIN =>
      simp only [hm] at hp
      exact maskDimsOk_floodPickContour E s s2 x y fuzz _ h hp
    | INERT =>
      simp only [hm] at hp
      exact maskDimsOk_floodPickContour E s s2 x y fuzz _ h hp
  · rw [if_neg c1] at hp
    simp only [Except.ok.injEq] at hp
    rw [← hp]
    exact h

theorem maskDimsOk_unpickLoop (E : Env) (x y : Int) (hits : List PolyItem) :
    ∀ s s2 : SnapshotModel, maskDimsOk s → unpickLoop E x y s hits = .ok s2 → maskDimsOk s2 := by
  induction hits with
  | nil =>
    intro s s2 h hu
    simp only [unpickLoop, Except.ok.injEq] at hu
    exact hu ▸ h
  | cons q rest ih =>
    intro s s2 h hu
    simp only [unpickLoop] at hu
    cases hf : floodFillSimple (getMatrix E s q.layer).2.asU8 x y 0 with
    | error e => simp [hf] at hu
    | ok mask =>
      simp only [hf] at hu
      obtain ⟨d1, d2⟩ := floodFillSimple_dims _ _ _ _ _ hf
      exact ih _ s2 (maskDimsOk_polys _ _ (maskDimsOk_edit_of_dims E s q.layer mask h d1 d2)) hu

/-- The method `unpick` keeps the mask dimension invariant. -/
theorem maskDimsOk_unpick (E : Env) (s s2 : SnapshotModel) (x y : Int)
    (h : maskDimsOk s) (hu : unpick E s x y = .ok s2) : maskDimsOk s2 :=
  maskDimsOk_unpickLoop E x y _ s s2 h hu

theorem maskDimsOk_mergeLoop (E : Env) (collection : QMap (List PolyItem)) (ks : List String) :
    ∀ s : SnapshotModel, maskDimsOk s → maskDimsOk (mergeLoop E collection s ks) := by
  induction ks with
  | nil => intro s h; exact h
  | cons name rest ih =>
    intro s h
    unfold mergeLoop
    simp only []
    split_ifs
    · exact ih s h
    · exact ih _ (maskDimsOk_addContour E _ _ name true (maskDimsOk_polys s _ h))

/-- The method `mergeContours` keeps the mask dimension invariant. -/
theorem maskDimsOk_mergeContours (E : Env) (s : SnapshotModel) (rect : ℚ × ℚ × ℚ × ℚ)
    (h : maskDimsOk s) : maskDimsOk (mergeContours E s rect) :=
  maskDimsOk_mergeLoop E _ _ s h

theorem maskDimsOk_clearLoop (E : Env) (hits : List PolyItem) :
    ∀ s s2 : SnapshotModel, maskDimsOk s → clearLoop E s hits = .ok s2 → maskDimsOk s2 := by
  induction hits with
  | nil =>
    intro s s2 h hu
    simp only [clearLoop, Except.ok.injEq] at hu
    exact hu ▸ h
  | cons q rest ih =>
    intro s s2 h hu
    simp only [clearLoop] at hu
    split at hu
    · exact absurd hu (by simp)
    · rename_i v t hv
      cases hf : floodFillSimple (getMatrix E s q.layer).2.asU8 (E.toCvPoint v).1
          (E.toCvPoint v).2 0 with
      | error e => simp [hf] at hu
      | ok mask =>
        simp only [hf] at hu
        obtain ⟨d1, d2⟩ := floodFillSimple_dims _ _ _ _ _ hf
        exact ih _ s2
          (maskDimsOk_polys _ _ (maskDimsOk_edit_of_dims E s q.layer mask h d1 d2)) hu

/-- The method `clearContours` keeps the mask dimension invariant. -/
theorem maskDimsOk_clearContours (E : Env) (s s2 : SnapshotModel) (rect : ℚ × ℚ × ℚ × ℚ)
    (h : maskDimsOk s) (hu : clearContours E s rect = .ok s2) : maskDimsOk s2 := by
  unfold clearContours at hu
  split_ifs at hu
  · simp only [Except.ok.injEq] at hu
    exact hu ▸ h
  · exact maskDimsOk_clearLoop E _ s s2 h hu

theorem addContour_input (E : Env) (s : SnapshotModel) (contour : Polygon) (name : String)
    (paint : Bool) : (addContour E s contour name paint).input = s.input := by
  unfold addContour
  cases paint with
  | false => rfl
  | true => simp [setMatrix, getMatrix_input]

theorem foldl_addContour_input (E : Env) (name : String) (paint : Bool)
    (polygons : List Polygon) :
    ∀ s : SnapshotModel,
      (polygons.foldl (fun st polygon => addContour E st polygon name paint) s).input
        = s.input := by
  induction polygons with
  | nil => intro s; rfl
  | cons a t ih =>
    intro s
    simp only [List.foldl_cons]
    rw [ih, addContour_input]

theorem detectContours_input (E : Env) (s s2 : SnapshotModel) (name : String)
    (addToScene : Bool) (maskROI : Rect) (simple : Int) (polygons : List Polygon)
    (hd : detectContours E s name addToScene maskROI simple = .ok (s2, polygons)) :
    s2.input = s.input := by
  unfold detectContours at hd
  by_cases c1 : (!s.m_matrices.contains name) = true
  · rw [if_pos c1] at hd
    simp only [Except.ok.injEq, Prod.mk.injEq] at hd
    rw [← hd.1]
  · rw [if_neg c1] at hd
    simp only [] at hd
    by_cases c2 : maskROI.width ≠ 0 ∧ (!roiInside (getMatrix E s name).2.asU8 maskROI) = true
    · rw [if_pos c2] at hd
      exact absurd hd (by simp)
    · rw [if_neg c2] at hd
      cases addToScene with
      | true =>
        simp only [if_true, Except.ok.injEq, Prod.mk.injEq] at hd
        rw [← hd.1, foldl_addContour_input, getMatrix_input]
      | false =>
        simp only [Bool.false_eq_true, if_false, Except.ok.injEq, Prod.mk.injEq] at hd
        rw [← hd.1, getMatrix_input]

theorem loadOne_keeps (E : Env) (mrows mcols : Nat) (s s2 : SnapshotModel) (name : String)
    (h : maskDimsOk s) (hr : mrows = s.input.rows) (hc : mcols = s.input.cols)
    (hl : loadOne E mrows mcols s name = .ok s2) : maskDimsOk s2 ∧ s2.input = s.input := by
  unfold loadOne at hl
  simp only [] at hl
  split at hl
  · simp only [Except.ok.injEq] at hl
    rw [← hl]
    exact ⟨h, rfl⟩
  · rename_i file hfile
    by_cases hd : file.asU8.rows = mrows ∧ file.asU8.cols = mcols
    · rw [if_pos hd] at hl
      split at hl
      · exact absurd hl (by simp)
      · rename_i d hdet
        simp only [Except.ok.injEq] at hl
        rw [← hl]
        have h1 : maskDimsOk (setMatrix s name (.u8 file.asU8)) := by
          apply maskDimsOk_setMatrix s name _ h
          intro _
          exact ⟨hd.1.trans hr, hd.2.trans hc⟩
        exact ⟨maskDimsOk_detectContours E _ d.1 name _ _ _ d.2 h1 hdet,
          (detectContours_input E (setMatrix s name (.u8 file.asU8)) d.1 name _ _ _ d.2
            hdet).trans rfl⟩
    · rw [if_neg hd] at hl
      simp only [Except.ok.injEq] at hl
      rw [← hl]
      exact ⟨h, rfl⟩

theorem loadLoop_keeps (E : Env) (mrows mcols : Nat) (names : List String) :
    ∀ s s2 : SnapshotModel, maskDimsOk s → mrows = s.input.rows → mcols = s.input.cols →
      loadLoop E mrows mcols s names = .ok s2 → maskDimsOk s2 := by
  induction names with
  | nil =>
    intro s s2 h _ _ hl
    simp only [loadLoop, Except.ok.injEq] at hl
    exact hl ▸ h
  | cons name rest ih =>
    intro s s2 h hr hc hl
    simp only [loadLoop] at hl
    split at hl
    · exact absurd hl (by simp)
    · rename_i s1 h1
      obtain ⟨k1, k2⟩ := loadOne_keeps E mrows mcols s s1 name h hr hc h1
      exact ih s1 s2 k1 (by rw [k2]; exact hr) (by rw [k2]; exact hc) hl

/-- The method `loadData` keeps the mask dimension invariant when the cached
"input" matrix, if any, has the size of the image. -/
theorem maskDimsOk_loadData (E : Env) (s s2 : SnapshotModel) (h : maskDimsOk s)
    (hin : ∀ m, s.m_matrices.value "input" = some m →
      m.rows = s.input.rows ∧ m.cols = s.input.cols)
    (hl : loadData E s = .ok s2) : maskDimsOk s2 := by
  unfold loadData at hl
  have hdim : (getMatrix E s "input").2.rows = s.input.rows ∧
      (getMatrix E s "input").2.cols = s.input.cols := by
    unfold getMatrix
    cases hv : s.m_matrices.value "input" with
    | some m => exact hin m hv
    | none =>
      have e1 : ¬ ("input" = "lab") := by decide
      have e2 : strContains "input" ".contours." = false := by decide
      have e3 : ¬ ("input" = "paletteRGB") := by decide
      simp only [e1, e2, e3, if_false, Bool.false_eq_true, getMatrixLeaf, hv, newMatrix,
        if_true]
      exact ⟨rfl, rfl⟩
  exact loadLoop_keeps E _ _ _ _ s2 (maskDimsOk_getMatrix E s "input" h)
    (by rw [getMatrix_input]; exact hdim.1) (by rw [getMatrix_input]; exact hdim.2) hl

/-- The method `computeColorDiff` keeps the mask dimension invariant when a
classification result of the size of the image is cached as "indices". -/
theorem maskDimsOk_computeColorDiff (E : Env) (s : SnapshotModel) (sliderValue : Int)
    (indices : CvMat) (h : maskDimsOk s)
    (hi : s.m_matrices.value "indices" = some indices)
    (hr : indices.rows = s.input.rows) (hc : indices.cols = s.input.cols) :
    maskDimsOk (computeColorDiff E s sliderValue) := by
  have h1 := maskDimsOk_getMatrix E s "dists" h
  have i1 := getMatrix_value_of_some E s "dists" "indices" indices hi
  have h2 := maskDimsOk_getMatrix E _ "indices" h1
  have e2 : getMatrix E (getMatrix E s "dists").1 "indices" =
      ((getMatrix E s "dists").1, indices) := getMatrix_hit E _ _ _ i1
  have h3 := maskDimsOk_getMatrix E _ "paletteRGB" h2
  have hin : (getMatrix E (getMatrix E (getMatrix E s "dists").1 "indices").1
      "paletteRGB").1.input = s.input := by
    rw [getMatrix_input, getMatrix_input, getMatrix_input]
  unfold computeColorDiff
  simp only [e2] at h3 hin ⊢
  generalize (getMatrix E (getMatrix E s "dists").1 "paletteRGB").1 = s3 at h3 hin ⊢
  have step : ∀ (st : SnapshotModel) (i : Nat) (m : Mat Nat),
      m.rows = indices.asS32.rows → m.cols = indices.asS32.cols →
      maskDimsOk st → st.input = s.input →
      maskDimsOk (setMatrix st ("count.contours." ++ s_colorNames.getD i "") (.u8 m)) := by
    intro st i m hm1 hm2 hst hst2
    apply maskDimsOk_setMatrix st _ _ hst
    intro _
    simp only [CvMat.rows, CvMat.cols, hm1, hm2, CvMat.asS32_rows, CvMat.asS32_cols, hst2]
    exact ⟨hr, hc⟩
  simp only [List.range, List.range.loop, List.foldl, clearLayer]
  apply maskDimsOk_polys
  apply maskDimsOk_setMatrix _ "colorDiff" _ _ (fun hc2 => absurd hc2 (by decide))
  refine step _ 2 _ rfl rfl ?_ hin
  refine step _ 1 _ rfl rfl ?_ hin
  exact step _ 0 _ rfl rfl h3 hin

/-- The `loadData` clause of the mask dimension invariant: a persisted mask
whose size differs from the image is not inserted into the cache and its
file is removed. -/
theorem loadOne_incompatible (E : Env) (mrows mcols : Nat) (s : SnapshotModel)
    (name : String) (file : CvMat) (hf : s.cacheFiles (name ++ ".png") = some file)
    (hd : ¬ (file.asU8.rows = mrows ∧ file.asU8.cols = mcols)) :
    ∃ s2, loadOne E mrows mcols s name = .ok s2 ∧ s2.m_matrices = s.m_matrices ∧
      s2.cacheFiles (name ++ ".png") = none := by
  unfold loadOne
  simp only [hf, hd, if_false]
  exact ⟨_, rfl, rfl, by simp⟩

/-- C8 (code defect). In the state right after construction on a 3 x 3 image,
before any classification, `computeColorDiff` finds no "indices" raster:
`getMatrix` memoises a default-constructed matrix for the tag, the three
colour masks are allocated with its 0 rows and 0 columns, and they are
stored under the "count.contours." tags, whatever the library routines and
the slider value are. The working image has 3 rows and 3 columns. -/
theorem computeColorDiff_before_classification (E : Env) (sliderValue : Int) :
    (freshModel dotImage []).input.rows = 3 ∧ (freshModel dotImage []).input.cols = 3 ∧
    ∀ color ∈ s_colorNames,
      strContains ("count.contours." ++ color) ".contours." = true ∧
      ((computeColorDiff E (freshModel dotImage []) sliderValue).m_matrices.value
        ("count.contours." ++ color)).map (fun m => (m.rows, m.cols)) = some (0, 0) := by
  refine ⟨rfl, rfl, ?_⟩
  intro color hc
  simp only [s_colorNames, List.mem_cons, List.mem_singleton, List.not_mem_nil, or_false] at hc
  rcases hc with rfl | rfl | rfl
  · exact ⟨by decide, rfl⟩
  · exact ⟨by decide, rfl⟩
  · exact ⟨by decide, rfl⟩

/-! ## Persistence -/

theorem saveOne_spec (E : Env) (s : SnapshotModel) (name : String) :
    (saveOne E s name).m_matrices = s.m_matrices ∧
      (saveOne E s name).cacheFiles (name ++ ".png") = s.m_matrices.value name ∧
      ∀ f, f ≠ name ++ ".png" → (saveOne E s name).cacheFiles f = s.cacheFiles f := by
  unfold saveOne
  cases hv : s.m_matrices.value name with
  | some m =>
    have hc : s.m_matrices.contains name = true := by
      rw [QMap.contains_eq_isSome, hv]; rfl
    rw [if_pos hc, getMatrix_hit E s name m hv]
    refine ⟨rfl, by simp, ?_⟩
    intro f hf
    simp [hf]
  | none =>
    have hc : s.m_matrices.contains name = false := by
      rw [QMap.contains_eq_isSome, hv]; rfl
    rw [if_neg (by simp [hc])]
    split_ifs with h1
    · refine ⟨rfl, by simp, ?_⟩
      intro f hf
      simp [hf]
    · refine ⟨rfl, ?_, fun _ _ => rfl⟩
      cases hf : s.cacheFiles (name ++ ".png") with
      | none => rfl
      | some x => simp [hf] at h1

/-- C9. After `saveData`, for every tag of `s_persistentMasks` the file
`tag + ".png"` of the cache directory exists exactly when the tag is in the
matrix cache, and then holds the cached mask; every other file of the
directory is as it was, and the matrix cache itself is not changed. -/
theorem saveData_persists_whitelist (E : Env) (s : SnapshotModel) :
    (∀ tag ∈ s_persistentMasks,
      (((saveData E s).cacheFiles (tag ++ ".png")).isSome = s.m_matrices.contains tag) ∧
      (∀ m, s.m_matrices.value tag = some m →
        (saveData E s).cacheFiles (tag ++ ".png") = some m)) ∧
    (∀ f, (∀ tag ∈ s_persistentMasks, f ≠ tag ++ ".png") →
      (saveData E s).cacheFiles f = s.cacheFiles f) ∧
    (saveData E s).m_matrices = s.m_matrices := by
  obtain ⟨a1, a2, a3⟩ := saveOne_spec E s "train.contours.green"
  obtain ⟨b1, b2, b3⟩ := saveOne_spec E (saveOne E s "train.contours.green")
    "train.contours.pink"
  obtain ⟨c1, c2, c3⟩ := saveOne_spec E
    (saveOne E (saveOne E s "train.contours.green") "train.contours.pink")
    "train.contours.yellow"
  have hs : saveData E s = saveOne E
      (saveOne E (saveOne E s "train.contours.green") "train.contours.pink")
      "train.contours.yellow" := rfl
  have key : ∀ tag ∈ s_persistentMasks,
      (saveData E s).cacheFiles (tag ++ ".png") = s.m_matrices.value tag := by
    intro tag ht
    simp only [s_persistentMasks, List.mem_cons, List.mem_singleton, List.not_mem_nil,
      or_false] at ht
    rw [hs]
    rcases ht with rfl | rfl | rfl
    · rw [c3 _ (by decide), b3 _ (by decide), a2]
    · rw [c3 _ (by decide), b2, a1]
    · rw [c2, b1, a1]
  refine ⟨?_, ?_, ?_⟩
  · intro tag ht
    constructor
    · rw [key tag ht, QMap.contains_eq_isSome]
    · intro m hm
      rw [key tag ht, hm]
  · intro f hf
    rw [hs, c3 f (hf _ (by decide)), b3 f (hf _ (by decide)), a3 f (hf _ (by decide))]
  · rw [hs, c1, b1, a1]

/-! ## Classification requests -/

/-- C10 (amended). With a null `m_flann`, `on_count_clicked` never hands
`classifyPixels` to the worker and leaves the matrix cache (so "indices",
"dists" and every mask), the polygons, the files and `m_flann` as they were;
`classifyPixels` itself would dereference the null pointer. The condition is
reported, by the debug message "Teach me the colors first", only in COUNT
mode; in any other mode the slot returns silently with the state unchanged. -/
theorem on_count_clicked_without_index (s : SnapshotModel) (h : s.m_flann = none) :
    (on_count_clicked s).2 = false ∧
    (on_count_clicked s).1.m_matrices = s.m_matrices ∧
    (on_count_clicked s).1.polys = s.polys ∧
    (on_count_clicked s).1.cacheFiles = s.cacheFiles ∧
    (on_count_clicked s).1.m_flann = none ∧
    (∀ E : Env, ∃ e, classifyPixels E s = .error e) ∧
    (s.m_mode = Mode.COUNT →
      (on_count_clicked s).1.log = s.log ++ ["Teach me the colors first"]) ∧
    (s.m_mode ≠ Mode.COUNT → (on_count_clicked s).1 = s) := by
  have hc : ∀ E : Env, ∃ e, classifyPixels E s = .error e := by
    intro E
    unfold classifyPixels
    simp only [getMatrix_flann, h]
    exact ⟨_, rfl⟩
  unfold on_count_clicked
  by_cases hm : s.m_mode = Mode.COUNT
  · simp [hm, h, hc]
  · simp [hm, h, hc]

/-- Witness for C10: the untrained model in COUNT mode. -/
theorem on_count_clicked_without_index_witness :
    untrainedCountModel.m_flann = none ∧
    (on_count_clicked untrainedCountModel).2 = false ∧
    (on_count_clicked untrainedCountModel).1.log = ["Teach me the colors first"] :=
  ⟨rfl, (on_count_clicked_without_index untrainedCountModel rfl).1,
    (on_count_clicked_without_index untrainedCountModel rfl).2.2.2.2.2.2.1 rfl⟩

/-- Counterexample to C10 as stated: in the mode the constructor leaves
(INERT), with no index built or loaded, `on_count_clicked` returns with an
empty log: nothing is reported. -/
theorem on_count_clicked_silent_outside_count_mode :
    (freshModel dotImage []).m_flann = none ∧
    (freshModel dotImage []).m_mode = Mode.INERT ∧
    (on_count_clicked (freshModel dotImage [])).2 = false ∧
    (on_count_clicked (freshModel dotImage [])).1.log = [] := by
  refine ⟨rfl, rfl, rfl, rfl⟩

/-! ## The fill of a pick always grows -/

theorem mem_allPixels (rows cols i j : Nat) :
    (i, j) ∈ allPixels rows cols ↔ i < rows ∧ j < cols := by
  simp [allPixels]

theorem copyToRowRange_rows (p0 centers p : Mat ℚ) (a b : Nat)
    (h : copyToRowRange p0 centers a b = .ok p) : p.rows = p0.rows := by
  unfold copyToRowRange at h
  split_ifs at h
  simp only [Except.ok.injEq] at h
  rw [← h]

/-- The copy loop throws when the palette has fewer rows than the groups it
copies need. -/
theorem assemblePalette_error_of_short (G : Nat) (cs : List Centers) :
    ∀ (p0 : Mat ℚ) (i0 : Nat), cs ≠ [] → p0.rows < (i0 + cs.length) * G →
      ∃ e, assemblePalette G p0 i0 cs = .error e := by
  induction cs with
  | nil => intro p0 i0 h; exact absurd rfl h
  | cons c rest ih =>
    intro p0 i0 _ hshort
    simp only [assemblePalette]
    cases hc : copyToRowRange p0 c.centers (i0 * G) ((i0 + 1) * G) with
    | error e => exact ⟨e, rfl⟩
    | ok p1 =>
      simp only []
      have hrows := copyToRowRange_rows _ _ _ _ _ hc
      have hfit : (i0 + 1) * G ≤ p0.rows := by
        unfold copyToRowRange at hc
        split_ifs at hc with hcond
        exact hcond.2
      cases rest with
      | nil =>
        simp only [List.length_singleton] at hshort
        exact absurd hfit (not_le.mpr hshort)
      | cons c2 rest2 =>
        apply ih p1 (i0 + 1) (by simp)
        rw [hrows]
        have e : i0 + 1 + (c2 :: rest2).length = i0 + (c :: c2 :: rest2).length := by
          simp only [List.length_cons]
          omega
        rw [e]
        exact hshort

/-- The copy loop succeeds when the palette has the rows all groups need. -/
theorem assemblePalette_ok_of_fits (G : Nat) (cs : List Centers) :
    ∀ (p0 : Mat ℚ) (i0 : Nat), (i0 + cs.length) * G ≤ p0.rows →
      ∃ p, assemblePalette G p0 i0 cs = .ok p := by
  induction cs with
  | nil => intro p0 i0 _; exact ⟨p0, rfl⟩
  | cons c rest ih =>
    intro p0 i0 hfit
    simp only [assemblePalette]
    have h1 : i0 * G ≤ (i0 + 1) * G := Nat.mul_le_mul_right G (Nat.le_succ i0)
    have h2 : (i0 + 1) * G ≤ p0.rows := by
      refine le_trans (Nat.mul_le_mul_right G ?_) hfit
      simp only [List.length_cons]
      omega
    have hc : copyToRowRange p0 c.centers (i0 * G) ((i0 + 1) * G) =
        .ok ⟨p0.rows, p0.cols, fun r col =>
          if i0 * G ≤ r ∧ r < (i0 + 1) * G then c.centers.px (r - i0 * G) col
          else p0.px r col⟩ := by
      unfold copyToRowRange
      rw [if_pos ⟨h1, h2⟩]
    rw [hc]
    simp only []
    apply ih
    simp only [List.length_cons] at hfit
    have e : i0 + 1 + rest.length = i0 + (rest.length + 1) := by omega
    rw [e]
    exact hfit

/-- C12 (code defect). With a single marked training pixel the clustering
returns one cluster (1 <= 1 <= 4), the palette is allocated with that one
row, and the first copy needs the rows 0 to 4: `(0 + 1) * 4 <= 1` fails and
`on_learn_clicked` ends in the exception of `rowRange`. In general the slot
throws whenever the cluster counts sum to less than `COLOR_GRADATIONS` times
the number of trained groups, that is whenever some group got fewer than
`COLOR_GRADATIONS` clusters. -/
theorem on_learn_clicked_row_range_overflow :
    (learnedCenters exampleEnv singleSampleModel).map (fun c => (c.tag, c.n_clusters)) =
      [("train.contours.green", 1)] ∧
    exampleEnv.COLOR_GRADATIONS = 4 ∧
    centersCount (learnedCenters exampleEnv singleSampleModel) = 1 ∧
    ¬ ((0 + 1) * exampleEnv.COLOR_GRADATIONS ≤
      centersCount (learnedCenters exampleEnv singleSampleModel)) ∧
    (∃ e, on_learn_clicked exampleEnv singleSampleModel = .error e) ∧
    ∀ (E : Env) (s : SnapshotModel),
      centersCount (learnedCenters E s) < (learnedCenters E s).length * E.COLOR_GRADATIONS →
      ∃ e, on_learn_clicked E s = .error e := by
  have gen : ∀ (E : Env) (s : SnapshotModel),
      centersCount (learnedCenters E s) < (learnedCenters E s).length * E.COLOR_GRADATIONS →
      ∃ e, on_learn_clicked E s = .error e := by
    intro E s h
    have hne : learnedCenters E s ≠ [] := by
      intro hnil
      rw [hnil] at h
      simp at h
    obtain ⟨e, he⟩ := assemblePalette_error_of_short E.COLOR_GRADATIONS (learnedCenters E s)
      ⟨centersCount (learnedCenters E s), 3, fun _ _ => 0⟩ 0 hne (by simpa using h)
    refine ⟨e, ?_⟩
    unfold on_learn_clicked
    simp only [learnedCenters] at he
    simp only [he]
  refine ⟨by decide, rfl, by decide, by decide, ?_, gen⟩
  exact gen exampleEnv singleSampleModel (by decide)

/-! ## The target of a pick -/

theorem pick_inert (E : Env) (s : SnapshotModel) (fuzz x y : Int)
    (hm : s.m_mode = Mode.INERT) (hp : (inputRect s).containsPoint x y = true) :
    pick E s fuzz x y = floodPickContour E s x y fuzz "" := by
  unfold pick
  rw [if_pos hp]
  simp only [hm]

theorem pick_train (E : Env) (s : SnapshotModel) (fuzz x y : Int)
    (hm : s.m_mode = Mode.TRAIN) (hp : (inputRect s).containsPoint x y = true) :
    pick E s fuzz x y = floodPickContour E s x y fuzz ("train.contours." ++ s.m_color) := by
  unfold pick
  rw [if_pos hp]
  simp only [hm]

/-- C13 (code defect). In the mode the constructor leaves (INERT) the switch
of `pick` sets no layer name, so for every point inside the image `pick`
calls `floodPickContour` with the empty tag. On the 3 x 3 image the empty
tag is no region mask name, `getMatrix` answers it with a matrix of 0 rows
and 0 columns, and the merge into that matrix throws. -/
theorem pick_inert_targets_empty_tag :
    (∀ (E : Env) (s : SnapshotModel) (fuzz x y : Int),
      s.m_mode = Mode.INERT → (inputRect s).containsPoint x y = true →
      pick E s fuzz x y = floodPickContour E s x y fuzz "") ∧
    (freshModel dotImage []).m_mode = Mode.INERT ∧
    (inputRect (freshModel dotImage [])).containsPoint 1 1 = true ∧
    strContains "" ".contours." = false ∧
    (getMatrix exampleEnv (getMatrix exampleEnv (freshModel dotImage []) "lab").1 "").2.rows = 0 ∧
    (getMatrix exampleEnv (getMatrix exampleEnv (freshModel dotImage []) "lab").1 "").2.cols = 0 ∧
    (freshModel dotImage []).input.rows = 3 ∧
    ∃ e, pick exampleEnv (freshModel dotImage []) 0 1 1 = .error e := by
  refine ⟨pick_inert, rfl, by decide, by decide, by decide, by decide, rfl,
    "cv::Exception: roi", ?_⟩
  with_unfolding_all rfl

/-! ## Disjoint colour masks -/

theorem foldl_min_le_init (l : List Nat) : ∀ init : Nat, l.foldl min init ≤ init := by
  induction l with
  | nil => intro init; exact le_refl _
  | cons a t ih =>
    intro init
    simp only [List.foldl_cons]
    exact le_trans (ih _) (Nat.min_le_left _ _)

theorem foldl_min_le_of_mem (l : List Nat) :
    ∀ (init x : Nat), x ∈ l → l.foldl min init ≤ x := by
  induction l with
  | nil => intro init x hx; simp at hx
  | cons a t ih =>
    intro init x hx
    simp only [List.foldl_cons]
    rcases List.mem_cons.mp hx with h | h
    · subst h
      exact le_trans (foldl_min_le_init _ _) (Nat.min_le_right _ _)
    · exact ih _ x h

theorem foldl_max_eq_zero (l : List Nat) (h : ∀ x ∈ l, x = 0) : l.foldl max 0 = 0 := by
  induction l with
  | nil => rfl
  | cons a t ih =>
    simp only [List.foldl_cons]
    have ha : a = 0 := h a (List.mem_cons_self _ _)
    rw [ha]
    simpa using ih (fun x hx => h x (List.mem_cons_of_mem _ hx))

theorem mem_window3 (rows cols i j : Nat) (q : Nat × Nat) :
    q ∈ window3 rows cols i j ↔
      (q.1 < rows ∧ q.2 < cols) ∧ i ≤ q.1 + 1 ∧ q.1 ≤ i + 1 ∧ j ≤ q.2 + 1 ∧ q.2 ≤ j + 1 := by
  simp only [window3, List.mem_filter, decide_eq_true_eq]
  rw [show q = (q.1, q.2) from rfl, mem_allPixels]

/-- The opening removes pixels and adds none: a pixel of the matrix that is
set after `morphOpen` was set before. -/
theorem morphOpen_px_ne_zero (m : Mat Nat) (i j : Nat) (hi : i < m.rows) (hj : j < m.cols)
    (h : (morphOpen m).px i j ≠ 0) : m.px i j ≠ 0 := by
  intro hz
  apply h
  simp only [morphOpen, dilate]
  apply foldl_max_eq_zero
  intro x hx
  simp only [List.mem_map] at hx
  obtain ⟨q, hq, rfl⟩ := hx
  have hq2 := (mem_window3 _ _ _ _ q).mp hq
  simp only [erode] at hq2 ⊢
  have hmem : (i, j) ∈ window3 m.rows m.cols q.1 q.2 := by
    rw [mem_window3]
    exact ⟨⟨hi, hj⟩, by omega, by omega, by omega, by omega⟩
  have hle := foldl_min_le_of_mem
    ((window3 m.rows m.cols q.1 q.2).map fun q => m.px q.1 q.2) 255 (m.px i j)
    (List.mem_map.mpr ⟨(i, j), hmem, rfl⟩)
  omega

theorem rawCardMask_disjoint (G : Nat) (diff : Mat Nat) (indices : Mat Int)
    (c1 c2 r c : Nat) (hne : c1 ≠ c2)
    (h1 : (rawCardMask G diff indices c1).px r c ≠ 0)
    (h2 : (rawCardMask G diff indices c2).px r c ≠ 0) : False := by
  rw [rawCardMask_px_ne_zero_iff] at h1 h2
  have : (c1 : Int) = c2 := h1.2.symm.trans h2.2
  exact hne (by exact_mod_cast this)

theorem Mat.dataAt_linear {α : Type} (m : Mat α) (r c : Nat) (hc : c < m.cols) :
    m.dataAt (r * m.cols + c) = m.px r c := by
  unfold Mat.dataAt
  have hpos : 0 < m.cols := Nat.lt_of_le_of_lt (Nat.zero_le _) hc
  have e1 : (r * m.cols + c) / m.cols = r := by
    rw [Nat.add_comm, Nat.add_mul_div_right _ _ hpos, Nat.div_eq_of_lt hc, Nat.zero_add]
  have e2 : (r * m.cols + c) % m.cols = c := by
    rw [Nat.add_comm, Nat.add_mul_mod_self_right, Nat.mod_eq_of_lt hc]
  rw [e1, e2]

/-- The masks `computeColorDiff` leaves in the cache under the three
"count.contours." tags are the opened colour masks 0, 1 and 2. -/
theorem computeColorDiff_stored_masks (E : Env) (s : SnapshotModel) (sliderValue : Int) :
    (computeColorDiff E s sliderValue).m_matrices.value "count.contours.green" =
        some (.u8 (cardMaskOpened E s sliderValue 0)) ∧
    (computeColorDiff E s sliderValue).m_matrices.value "count.contours.pink" =
        some (.u8 (cardMaskOpened E s sliderValue 1)) ∧
    (computeColorDiff E s sliderValue).m_matrices.value "count.contours.yellow" =
        some (.u8 (cardMaskOpened E s sliderValue 2)) := by
  have e0 : "count.contours." ++ s_colorNames.getD 0 "" = "count.contours.green" := by decide
  have e1 : "count.contours." ++ s_colorNames.getD 1 "" = "count.contours.pink" := by decide
  have e2 : "count.contours." ++ s_colorNames.getD 2 "" = "count.contours.yellow" := by decide
  unfold computeColorDiff
  simp only [List.range, List.range.loop, List.foldl, clearLayer, setMatrix, e0, e1, e2]
  refine ⟨?_, ?_, ?_⟩
  · rw [QMap.value_insert_of_ne _ _ _ _ (by decide), QMap.value_insert_of_ne _ _ _ _ (by decide),
      QMap.value_insert_of_ne _ _ _ _ (by decide), QMap.value_insert_self]
    rfl
  · rw [QMap.value_insert_of_ne _ _ _ _ (by decide), QMap.value_insert_of_ne _ _ _ _ (by decide),
      QMap.value_insert_self]
    rfl
  · rw [QMap.value_insert_of_ne _ _ _ _ (by decide), QMap.value_insert_self]
    rfl

/-- C14. For a classification result whose indices lie in
`0 <= index < 3 * COLOR_GRADATIONS` and for every slider value, no pixel is
set in the masks of two different colours, neither in the masks the loop of
`computeColorDiff` fills (before the opening) nor in the opened masks, which
are the ones stored under the three "count.contours." tags; and every pixel
with a non-zero byte of `thresholdedDiff` is set in one of the three masks
before the opening. -/
theorem cardMasks_pairwise_disjoint (E : Env) (s : SnapshotModel) (sliderValue : Int)
    (hidx : ∀ i j, i < (cachedIndices E s).rows → j < (cachedIndices E s).cols →
      0 ≤ (cachedIndices E s).px i j ∧
        (cachedIndices E s).px i j < 3 * (E.COLOR_GRADATIONS : Int)) :
    (∀ c1 c2 i j, c1 ≠ c2 →
      ¬ ((cardMaskRaw E s sliderValue c1).px i j ≠ 0 ∧
        (cardMaskRaw E s sliderValue c2).px i j ≠ 0)) ∧
    (∀ c1 c2 i j, c1 ≠ c2 → i < (cachedIndices E s).rows → j < (cachedIndices E s).cols →
      ¬ ((cardMaskOpened E s sliderValue c1).px i j ≠ 0 ∧
        (cardMaskOpened E s sliderValue c2).px i j ≠ 0)) ∧
    ((computeColorDiff E s sliderValue).m_matrices.value "count.contours.green" =
        some (.u8 (cardMaskOpened E s sliderValue 0)) ∧
      (computeColorDiff E s sliderValue).m_matrices.value "count.contours.pink" =
        some (.u8 (cardMaskOpened E s sliderValue 1)) ∧
      (computeColorDiff E s sliderValue).m_matrices.value "count.contours.yellow" =
        some (.u8 (cardMaskOpened E s sliderValue 2))) ∧
    (∀ i j, i < (cachedIndices E s).rows → j < (cachedIndices E s).cols →
      (cachedDiff E s sliderValue).dataAt (i * (cachedIndices E s).cols + j) ≠ 0 →
      ∃ color, color < 3 ∧ (cardMaskRaw E s sliderValue color).px i j ≠ 0) := by
  refine ⟨?_, ?_, computeColorDiff_stored_masks E s sliderValue, ?_⟩
  · intro c1 c2 i j hne h
    exact rawCardMask_disjoint _ _ _ c1 c2 i j hne h.1 h.2
  · intro c1 c2 i j hne hi hj h
    have h1 := morphOpen_px_ne_zero (cardMaskRaw E s sliderValue c1) i j hi hj h.1
    have h2 := morphOpen_px_ne_zero (cardMaskRaw E s sliderValue c2) i j hi hj h.2
    exact rawCardMask_disjoint _ _ _ c1 c2 i j hne h1 h2
  · intro i j hi hj hd
    obtain ⟨h0, h3⟩ := hidx i j hi hj
    have hG : (0 : Int) < (E.COLOR_GRADATIONS : Int) := by omega
    have hq0 : 0 ≤ Int.tdiv ((cachedIndices E s).px i j) E.COLOR_GRADATIONS :=
      Int.tdiv_nonneg h0 (le_of_lt hG)
    have hq3 : Int.tdiv ((cachedIndices E s).px i j) E.COLOR_GRADATIONS < 3 := by
      rw [Int.tdiv_eq_ediv h0 (le_of_lt hG)]
      exact Int.ediv_lt_of_lt_mul hG h3
    refine ⟨(Int.tdiv ((cachedIndices E s).px i j) E.COLOR_GRADATIONS).toNat, by omega, ?_⟩
    simp only [cardMaskRaw]
    rw [rawCardMask_px_ne_zero_iff, Mat.dataAt_linear _ i j hj]
    exact ⟨hd, (Int.toNat_of_nonneg hq0).symm⟩

/-- Witness for C14: the classified 3 x 3 state with indices 0, 5 and 9 and
four gradations; at slider value 10 the pixel (1,0) is set in the green mask
before the opening and in no other. -/
theorem cardMasks_pairwise_disjoint_witness :
    (∀ i j, i < (cachedIndices exampleEnv classifiedModel).rows →
      j < (cachedIndices exampleEnv classifiedModel).cols →
      0 ≤ (cachedIndices exampleEnv classifiedModel).px i j ∧
        (cachedIndices exampleEnv classifiedModel).px i j <
          3 * (exampleEnv.COLOR_GRADATIONS : Int)) ∧
    (cardMaskRaw exampleEnv classifiedModel 10 0).px 1 0 = 1 ∧
    (cardMaskRaw exampleEnv classifiedModel 10 1).px 1 0 = 0 ∧
    (cardMaskRaw exampleEnv classifiedModel 10 1).px 1 1 = 1 ∧
    (cardMaskRaw exampleEnv classifiedModel 10 2).px 1 2 = 1 ∧
    (∀ c1 c2 i j, c1 ≠ c2 → i < (cachedIndices exampleEnv classifiedModel).rows →
      j < (cachedIndices exampleEnv classifiedModel).cols →
      ¬ ((cardMaskOpened exampleEnv classifiedModel 10 c1).px i j ≠ 0 ∧
        (cardMaskOpened exampleEnv classifiedModel 10 c2).px i j ≠ 0)) := by
  have hyp : ∀ i j, i < (cachedIndices exampleEnv classifiedModel).rows →
      j < (cachedIndices exampleEnv classifiedModel).cols →
      0 ≤ (cachedIndices exampleEnv classifiedModel).px i j ∧
        (cachedIndices exampleEnv classifiedModel).px i j <
          3 * (exampleEnv.COLOR_GRADATIONS : Int) := by
    intro i j _ _
    show 0 ≤ (if j = 0 then (0 : Int) else if j = 1 then 5 else 9) ∧
      (if j = 0 then (0 : Int) else if j = 1 then 5 else 9) < 3 * ((4 : Nat) : Int)
    split_ifs <;> decide
  exact ⟨hyp, by decide!, by decide!, by decide!, by decide!,
    (cardMasks_pairwise_disjoint exampleEnv classifiedModel 10 hyp).2.1⟩

end VoteCounter
